import Mathlib

/-!
A shallow embedding of the front-end of the Newton language
(lexer, parser, token/type/span data model), translated from
`src/lexer/lexer.rs`, `src/lexer/token.rs`, `src/parser/parser.rs`,
`src/parser/span.rs`, `src/parser/error.rs`, `src/types/types.rs`,
`src/ast/ast.rs` and `src/lib.rs`, together with theorems settling the
frozen claims about that front-end.

Modelling conventions:
* Rust `&str` payloads become `String`; the source buffer is a `List Char`
  and byte offsets are computed with `Char.utf8Size`.
* Rust `usize` arithmetic becomes `Nat` arithmetic (the subtractions
  performed by the code never underflow on the traced paths).
* A Rust `panic!`/`.unwrap()` abort is modelled by the `POut.panic`
  outcome, which propagates through every parser computation.
* Iterators become explicit state: the lexer is a function of the source
  and the index of the next character, the parser consumes the list of
  items the lexer produces.
* Loops in the Rust code become recursion; the mutually recursive parser
  functions take an explicit fuel argument (the Rust code has no fuel;
  drivers pass an amount of fuel large enough that it is never exhausted
  on the inputs considered, and running out of fuel is a separate
  `POut.nofuel` outcome distinct from every behaviour of the code).
-/

namespace Newton

/-- `Span` from `src/parser/span.rs`: a pair of byte offsets, inclusive on
both ends for slicing. -/
structure Span where
  start : Nat
  «end» : Nat
deriving DecidableEq, Repr

/-- `Spanned<T>` from `src/parser/span.rs`. -/
structure Spanned (α : Type) where
  span : Span
  node : α
deriving DecidableEq, Repr

/-- `Spanned::new`. -/
def Spanned.new (start «end» : Nat) (node : α) : Spanned α :=
  ⟨⟨start, «end»⟩, node⟩

/-- `Spanned::new_from_span`. -/
def Spanned.new_from_span (span : Span) (node : α) : Spanned α :=
  ⟨span, node⟩

/-- `UserIdentifier` from `src/types/types.rs`. -/
structure UserIdentifier where
  file : String
  name : String
deriving DecidableEq, Repr

/-- `UserIdentifier::new`. -/
def UserIdentifier.new (file name : String) : UserIdentifier := ⟨file, name⟩

/-- `Integer` from `src/types/types.rs`. -/
structure Integer where
  size : Nat
  signed : Bool
deriving DecidableEq, Repr

/-- `Integer::new_signed_int`. -/
def Integer.new_signed_int (size : Nat) : Integer := ⟨size, true⟩

/-- `Integer::new_unsigned_int`. -/
def Integer.new_unsigned_int (size : Nat) : Integer := ⟨size, false⟩

/-- `Float` from `src/types/types.rs` (the type grammar's float, not a
machine float: it only records the bit size). -/
structure Float where
  size : Nat
deriving DecidableEq, Repr

/-- `Float::new_f32`. -/
def Float.new_f32 : Float := ⟨32⟩

/-- `Float::new_f64`. -/
def Float.new_f64 : Float := ⟨64⟩

/-- `Simple` from `src/types/types.rs`. -/
inductive Simple where
  | String : Simple
  | Integer : Integer → Simple
  | Float : Float → Simple
  | Character : Simple
  | Void : Simple
  | Bool : Simple
  | UserDefinedType : UserIdentifier → Simple
  | VarArgs : Simple
deriving DecidableEq, Repr

/-- `TokenType` from `src/lexer/token.rs`. -/
inductive TokenType where
  | NullLiteral
  | Identifier (s : String)
  | DecLiteral (s : String)
  | FloatLiteral (s : String)
  | StringLiteral (s : String)
  | Char (s : String)
  | TypeIdentifier (ty : Simple)
  | Let | Fn | If | Else | Import | From | Return | Extern | While
  | Type | Struct | Trait | Implements | Enum | New | Delete | Sizeof
  | As | Static | Inline | Abstract | Mut | And | Or | For | Break
  | Continue | True | False | Match | Case | Default | Finally
  | Volatile | Register
  | Bang | Equals | Plus | Minus | Star | Slash | Percent | Smaller
  | Greater | Ampersand | Pipe | LeftParen | RightParen | LeftBrace
  | RightBrace | LeftBracket | RightBracket | Colon | Semicolon | Dot
  | Comma | Question | At | Caret
  | Varargs | EqualsEquals | BangEquals | SmallerEquals | GreaterEquals
  | AmpersandAmpersand | PipePipe | PlusPlus | MinusMinus | Arrow

/-- Structural equality on `TokenType`, Rust's derived `PartialEq`
(written by hand because the automatic derivation of decidable equality
for a 90-constructor enum exhausts the elaborator). -/
def TokenType.beq : TokenType → TokenType → Bool
  | .NullLiteral, .NullLiteral => true
  | .Identifier a, .Identifier b => a = b
  | .DecLiteral a, .DecLiteral b => a = b
  | .FloatLiteral a, .FloatLiteral b => a = b
  | .StringLiteral a, .StringLiteral b => a = b
  | .Char a, .Char b => a = b
  | .TypeIdentifier a, .TypeIdentifier b => a = b
  | .Let, .Let => true
  | .Fn, .Fn => true
  | .If, .If => true
  | .Else, .Else => true
  | .Import, .Import => true
  | .From, .From => true
  | .Return, .Return => true
  | .Extern, .Extern => true
  | .While, .While => true
  | .Type, .Type => true
  | .Struct, .Struct => true
  | .Trait, .Trait => true
  | .Implements, .Implements => true
  | .Enum, .Enum => true
  | .New, .New => true
  | .Delete, .Delete => true
  | .Sizeof, .Sizeof => true
  | .As, .As => true
  | .Static, .Static => true
  | .Inline, .Inline => true
  | .Abstract, .Abstract => true
  | .Mut, .Mut => true
  | .And, .And => true
  | .Or, .Or => true
  | .For, .For => true
  | .Break, .Break => true
  | .Continue, .Continue => true
  | .True, .True => true
  | .False, .False => true
  | .Match, .Match => true
  | .Case, .Case => true
  | .Default, .Default => true
  | .Finally, .Finally => true
  | .Volatile, .Volatile => true
  | .Register, .Register => true
  | .Bang, .Bang => true
  | .Equals, .Equals => true
  | .Plus, .Plus => true
  | .Minus, .Minus => true
  | .Star, .Star => true
  | .Slash, .Slash => true
  | .Percent, .Percent => true
  | .Smaller, .Smaller => true
  | .Greater, .Greater => true
  | .Ampersand, .Ampersand => true
  | .Pipe, .Pipe => true
  | .LeftParen, .LeftParen => true
  | .RightParen, .RightParen => true
  | .LeftBrace, .LeftBrace => true
  | .RightBrace, .RightBrace => true
  | .LeftBracket, .LeftBracket => true
  | .RightBracket, .RightBracket => true
  | .Colon, .Colon => true
  | .Semicolon, .Semicolon => true
  | .Dot, .Dot => true
  | .Comma, .Comma => true
  | .Question, .Question => true
  | .At, .At => true
  | .Caret, .Caret => true
  | .Varargs, .Varargs => true
  | .EqualsEquals, .EqualsEquals => true
  | .BangEquals, .BangEquals => true
  | .SmallerEquals, .SmallerEquals => true
  | .GreaterEquals, .GreaterEquals => true
  | .AmpersandAmpersand, .AmpersandAmpersand => true
  | .PipePipe, .PipePipe => true
  | .PlusPlus, .PlusPlus => true
  | .MinusMinus, .MinusMinus => true
  | .Arrow, .Arrow => true
  | _, _ => false

instance : BEq TokenType := ⟨TokenType.beq⟩

/-- `Precedence` from `src/lexer/token.rs` (`#[repr(u8)]`, derives `Ord`). -/
inductive Precedence where
  | None | Assignment | And | Equality | Comparison | Sum | Product
  | Unary | Call
deriving DecidableEq, Repr

/-- The `u8` discriminant of `Precedence`, used for its derived `Ord`. -/
def Precedence.toNat : Precedence → Nat
  | .None => 0
  | .Assignment => 1
  | .And => 2
  | .Equality => 3
  | .Comparison => 4
  | .Sum => 5
  | .Product => 6
  | .Unary => 7
  | .Call => 8

/-- The derived `>` on `Precedence` (comparison of discriminants). -/
def Precedence.gt (a b : Precedence) : Bool := b.toNat < a.toNat

/-- `TokenType::precedence` from `src/lexer/token.rs`. -/
def TokenType.precedence : TokenType → Precedence
  | .Equals => .Assignment
  | .AmpersandAmpersand | .PipePipe => .And
  | .EqualsEquals | .BangEquals => .Equality
  | .Greater | .GreaterEquals | .Smaller | .SmallerEquals => .Comparison
  | .Plus | .PlusPlus | .Minus | .MinusMinus => .Sum
  | .Star | .Slash | .Percent | .As => .Product
  | .LeftParen | .LeftBrace | .Dot => .Call
  | _ => .None

/-- `LexingError` from `src/parser/error.rs`: the struct holds only the
optional cause, so it is modelled as `Option String`
(`LexingError::default()` is `none`, `LexingError::with_cause c` is
`some c`). -/
abbrev LexingError := Option String

/-- `ParseError` from `src/parser/error.rs`. -/
inductive ParseError where
  | LexingError (cause : LexingError)
  | PrefixError (s : String)
  | InfixError (s : String)
  | InternalError (s : String)
  | ConsumeError (actual : TokenType) (expected : String)

/-- `Simple`'s `Display` implementation from `src/types/types.rs`
(`Float`'s `Display` panics for sizes other than 32 and 64; the lexer only
builds 32 and 64, and the model prints `f64` for every non-32 size). -/
def simpleText : Simple → String
  | .String => "string"
  | .Character => "char"
  | .Void => "void"
  | .Bool => "bool"
  | .VarArgs => "..."
  | .Integer i => (if i.signed then "i" else "u") ++ toString i.size
  | .Float f => if f.size = 32 then "f32" else "f64"
  | .UserDefinedType u => u.file ++ "." ++ u.name

/-- `TokenType`'s `Display` implementation from `src/lexer/token.rs`. -/
def tokenText : TokenType → String
  | .NullLiteral => "null"
  | .Identifier v => v
  | .StringLiteral v => v
  | .Char v => v
  | .TypeIdentifier v => simpleText v
  | .DecLiteral v => v
  | .FloatLiteral v => v
  | .Let => "let"
  | .Fn => "fn"
  | .If => "if"
  | .Else => "else"
  | .Import => "import"
  | .From => "from"
  | .Return => "return"
  | .Extern => "extern"
  | .While => "while"
  | .Type => "type"
  | .Struct => "struct"
  | .Trait => "trait"
  | .Implements => "implements"
  | .Enum => "enum"
  | .New => "new"
  | .Delete => "delete"
  | .Sizeof => "sizeof"
  | .As => "as"
  | .Static => "static"
  | .Inline => "inline"
  | .Abstract => "abstract"
  | .Mut => "mut"
  | .And => "and"
  | .Or => "or"
  | .For => "for"
  | .Break => "break"
  | .Continue => "continue"
  | .True => "true"
  | .False => "false"
  | .Match => "match"
  | .Case => "case"
  | .Default => "default"
  | .Finally => "finally"
  | .Volatile => "volatile"
  | .Register => "register"
  | .Bang => "!"
  | .Equals => "="
  | .Plus => "+"
  | .Minus => "-"
  | .Star => "*"
  | .Slash => "/"
  | .Percent => "%"
  | .Smaller => "<"
  | .Greater => ">"
  | .Ampersand => "&"
  | .Pipe => "|"
  | .LeftParen => "("
  | .RightParen => ")"
  | .LeftBrace => "\x7b"
  | .RightBrace => "\x7d"
  | .LeftBracket => "["
  | .RightBracket => "]"
  | .Colon => ":"
  | .Semicolon => ";"
  | .Dot => "."
  | .Comma => ","
  | .Question => "?"
  | .At => "@"
  | .Caret => "^"
  | .Varargs => "..."
  | .EqualsEquals => "=="
  | .BangEquals => "!="
  | .SmallerEquals => "<="
  | .GreaterEquals => ">="
  | .AmpersandAmpersand => "&&"
  | .PipePipe => "||"
  | .PlusPlus => "++"
  | .MinusMinus => "--"
  | .Arrow => "=>"

instance : Repr TokenType := ⟨fun t _ => Std.Format.text (tokenText t)⟩

instance : Repr ParseError :=
  ⟨fun e _ => Std.Format.text (match e with
    | .LexingError c => "LexingError " ++ toString c
    | .PrefixError s => "PrefixError " ++ s
    | .InfixError s => "InfixError " ++ s
    | .InternalError s => "InternalError " ++ s
    | .ConsumeError a s => "ConsumeError " ++ tokenText a ++ " expected " ++ s)⟩

/-- `Source` from `src/lib.rs` (the raw code kept as a character list). -/
structure Source where
  name : String
  code : List Char
deriving DecidableEq, Repr

/-- One item of the lexer's output stream:
`Scanned<'a> = Result<Spanned<TokenType>, Spanned<ParseError>>`. -/
abbrev Scanned := Except (Spanned ParseError) (Spanned TokenType)

/-! ## Lexer (`src/lexer/lexer.rs`)

The Rust lexer's state is a peekable `CharIndices` cursor, the `current`
input position and the `prev` character.  After the lexer has consumed the
first `i` characters of the source, `current` is character `i` (if any),
and `prev` is character `i - 1` when `i ≥ 2` and `None` otherwise
(`advance` only records `prev` when the consumed character's byte position
is `> 0`, and only character 0 sits at byte position 0).  The whole state
is therefore the index `i` of the next character, which is how the lexer
is modelled: each `scan_*` function takes the source and `i` and returns
its result together with the new index. -/

/-- The character the lexer's single quote branch matches (`'\''`). -/
def singleQuote : Char := Char.ofNat 39

/-- The character the lexer's string branch matches (`'"'`). -/
def doubleQuote : Char := Char.ofNat 34

/-- A backslash character. -/
def backslash : Char := Char.ofNat 92

/-- A newline character. -/
def newline : Char := Char.ofNat 10

/-- The byte offset of character `i` of the source (the total byte length
when `i` is past the end), i.e. `Lexer::pos` as a function of the index of
the next character. -/
def bytePos (src : List Char) (i : Nat) : Nat :=
  ((src.take i).map Char.utf8Size).sum

/-- The byte length of a slice of the source
(`str::len` of the corresponding `&str`). -/
def byteLength (l : List Char) : Nat := (l.map Char.utf8Size).sum

/-- `self.prev.map_or(0, char::len_utf8)` at state `i`: the previously
consumed character is character `i - 1`, except that consuming character 0
(byte position 0) does not set `prev`. -/
def prevLen (src : List Char) (i : Nat) : Nat :=
  if 2 ≤ i then
    match src.get? (i - 1) with
    | some c => c.utf8Size
    | none => 0
  else 0

/-- `Lexer::spanned`: span from `start` to
`pos() - prev.map_or(0, len_utf8)`. -/
def mkSpanned (src : List Char) (i : Nat) (start : Nat) (t : α) : Spanned α :=
  Spanned.new start (bytePos src i - prevLen src i) t

/-- `Lexer::read_while`: the consumed slice and the new index. -/
def read_while (p : Char → Bool) (src : List Char) (i : Nat) :
    List Char × Nat :=
  let tk := (src.drop i).takeWhile p
  (tk, i + tk.length)

/-- Rust `char::is_whitespace` (the Unicode `White_Space` property,
written out as its 25 code points). -/
def rustIsWhitespace (c : Char) : Bool :=
  ([9, 10, 11, 12, 13, 32, 0x85, 0xA0, 0x1680,
    0x2000, 0x2001, 0x2002, 0x2003, 0x2004, 0x2005, 0x2006, 0x2007,
    0x2008, 0x2009, 0x200A, 0x2028, 0x2029, 0x202F, 0x205F,
    0x3000] : List Nat).contains c.toNat

/-- Rust `char::is_alphabetic`, restricted to ASCII (every theorem that
quantifies over source text restricts it to ASCII characters, where the
two functions agree; concrete inputs in this file are ASCII). -/
def rustIsAlphabetic (c : Char) : Bool := c.isAlpha

/-- Rust `char::is_alphanumeric`, restricted to ASCII (see
`rustIsAlphabetic`). -/
def rustIsAlphanumeric (c : Char) : Bool := c.isAlphanum

/-- `str::is_ascii`. -/
def strIsAscii (l : List Char) : Bool := l.all (fun c => c.toNat < 128)

/-- `Lexer::skip_whitespace` (returns the new index). -/
def skip_whitespace (src : List Char) (i : Nat) : Nat :=
  (read_while rustIsWhitespace src i).2

/-- The keyword table of `Lexer::check_keyword`. -/
def check_keyword (s : String) : Option TokenType :=
  match s with
  | "string" => some (.TypeIdentifier .String)
  | "i8" => some (.TypeIdentifier (.Integer (Integer.new_signed_int 8)))
  | "u8" => some (.TypeIdentifier (.Integer (Integer.new_unsigned_int 8)))
  | "i16" => some (.TypeIdentifier (.Integer (Integer.new_signed_int 16)))
  | "u16" => some (.TypeIdentifier (.Integer (Integer.new_unsigned_int 16)))
  | "i32" => some (.TypeIdentifier (.Integer (Integer.new_signed_int 32)))
  | "u32" => some (.TypeIdentifier (.Integer (Integer.new_unsigned_int 32)))
  | "i64" => some (.TypeIdentifier (.Integer (Integer.new_signed_int 64)))
  | "u64" => some (.TypeIdentifier (.Integer (Integer.new_unsigned_int 64)))
  | "f32" => some (.TypeIdentifier (.Float Float.new_f32))
  | "f64" => some (.TypeIdentifier (.Float Float.new_f64))
  | "char" => some (.TypeIdentifier .Character)
  | "void" => some (.TypeIdentifier .Void)
  | "bool" => some (.TypeIdentifier .Bool)
  | "let" => some .Let
  | "fn" => some .Fn
  | "if" => some .If
  | "else" => some .Else
  | "import" => some .Import
  | "from" => some .From
  | "return" => some .Return
  | "extern" => some .Extern
  | "while" => some .While
  | "type" => some .Type
  | "struct" => some .Struct
  | "trait" => some .Trait
  | "implements" => some .Implements
  | "enum" => some .Enum
  | "new" => some .New
  | "delete" => some .Delete
  | "sizeof" => some .Sizeof
  | "as" => some .As
  | "static" => some .Static
  | "inline" => some .Inline
  | "abstract" => some .Abstract
  | "mut" => some .Mut
  | "and" => some .And
  | "or" => some .Or
  | "for" => some .For
  | "break" => some .Break
  | "continue" => some .Continue
  | "true" => some .True
  | "false" => some .False
  | "match" => some .Match
  | "case" => some .Case
  | "default" => some .Default
  | "finally" => some .Finally
  | "volatile" => some .Volatile
  | "register" => some .Register
  | _ => none

/-- `Lexer::scan_identifier`. -/
def scan_identifier (src : List Char) (i : Nat) : Scanned × Nat :=
  let start := bytePos src i
  let r := read_while (fun c => rustIsAlphanumeric c || c = '_') src i
  let slice := r.1
  let i' := r.2
  match check_keyword (String.mk slice) with
  | some tok => (.ok (mkSpanned src i' start tok), i')
  | none =>
    if strIsAscii slice then
      (.ok (mkSpanned src i' start (.Identifier (String.mk slice))), i')
    else
      (.error (mkSpanned src i' start
        (.LexingError (some "non-ascii identifiers are not allowed"))), i')

/-- `Lexer::scan_number`. -/
def scan_number (src : List Char) (i : Nat) : Scanned × Nat :=
  let start := bytePos src i
  let r := read_while Char.isDigit src i
  let slice := r.1
  let i₁ := r.2
  let dec : Scanned × Nat :=
    (.ok (mkSpanned src i₁ start (.DecLiteral (String.mk slice))), i₁)
  match src.get? i₁ with
  | some c =>
    if c = '.' then
      match src.get? (i₁ + 1) with
      | some d =>
        if d.isDigit then
          let r2 := read_while Char.isDigit src (i₁ + 1)
          let i₂ := r2.2
          (.ok (mkSpanned src i₂ start
            (.FloatLiteral (String.mk (slice ++ '.' :: r2.1)))), i₂)
        else dec
      | none => dec
    else dec
  | none => dec

/-- `Lexer::scan_string` (entered with `current` on the opening quote at
index `i`). -/
def scan_string (src : List Char) (i : Nat) : Scanned × Nat :=
  let start := bytePos src (i + 1)
  let r := read_while (fun c => c ≠ doubleQuote) src (i + 1)
  let i₁ := r.2
  if src.length ≤ i₁ then
    let pos := bytePos src i₁
    (.error (Spanned.new pos pos
      (.LexingError (some "unterminated string literal"))), i₁)
  else
    let sp := mkSpanned src (i₁ + 1) start (TokenType.StringLiteral (String.mk r.1))
    let sp := if sp.span.«end» - sp.span.start > 0 then
        ⟨⟨sp.span.start, sp.span.«end» - 1⟩, sp.node⟩
      else sp
    (.ok sp, i₁ + 1)

/-- The character-literal arm of `Lexer::scan_token` (entered with
`current` on the opening quote at index `i`; `start` is its byte
position).  Rust matches on the *byte* length of the scanned slice. -/
def scan_char (src : List Char) (i start : Nat) : Scanned × Nat :=
  let r := read_while (fun c => c ≠ singleQuote) src (i + 1)
  let c := r.1
  let i₁ := r.2
  let result : Scanned :=
    if byteLength c = 1 ∧ c ≠ [backslash] then
      .ok (Spanned.new (start + 1) (start + 1) (.Char (String.mk c)))
    else if byteLength c = 2 ∧ c = [backslash, backslash] then
      .ok (Spanned.new (start + 1) (start + 1) (.Char (String.mk [backslash])))
    else if byteLength c = 2 ∧ c = [backslash, '0'] then
      .ok (Spanned.new (start + 1) (start + 1) (.Char (String.mk [Char.ofNat 0])))
    else if byteLength c = 2 ∧ c = [backslash, 'n'] then
      .ok (Spanned.new (start + 1) (start + 1) (.Char (String.mk [Char.ofNat 10])))
    else if byteLength c = 2 ∧ c = [backslash, 'r'] then
      .ok (Spanned.new (start + 1) (start + 1) (.Char (String.mk [Char.ofNat 13])))
    else if byteLength c = 2 ∧ c = [backslash, 't'] then
      .ok (Spanned.new (start + 1) (start + 1) (.Char (String.mk [Char.ofNat 9])))
    else
      .error (Spanned.new start (bytePos src i₁)
        (.LexingError (some "`char` must have a length of one")))
  let i₂ := if i₁ < src.length then i₁ + 1 else i₁
  (result, i₂)

/-- The `consume_once!` macro: advance once and span the token. -/
def consume_once (src : List Char) (i start : Nat) (t : TokenType) :
    Scanned × Nat :=
  (.ok (mkSpanned src (i + 1) start t), i + 1)

/-- The two-argument `consume_multiple!` macro: the doubled character
(`++`, `--`, `&&`, `||`). -/
def consume_double (src : List Char) (i start : Nat) (ch : Char)
    (first second : TokenType) : Scanned × Nat :=
  match src.get? (i + 1) with
  | some c' =>
    if c' = ch then (.ok (mkSpanned src (i + 2) start second), i + 2)
    else (.ok (mkSpanned src (i + 1) start first), i + 1)
  | none => (.ok (mkSpanned src (i + 1) start first), i + 1)

/-- The three-argument `consume_multiple!` macro: the given second
character (`!=`, `<=`, `>=`). -/
def consume_with (src : List Char) (i start : Nat) (next : Char)
    (first second : TokenType) : Scanned × Nat :=
  match src.get? (i + 1) with
  | some c' =>
    if c' = next then (.ok (mkSpanned src (i + 2) start second), i + 2)
    else (.ok (mkSpanned src (i + 1) start first), i + 1)
  | none => (.ok (mkSpanned src (i + 1) start first), i + 1)

/-- `Lexer::scan_token`.  `none` is the iterator's `None`.  The fuel
argument only bounds the number of line comments the call can skip
(callers pass `src.length + 1`, which can never be exhausted); every
other recursion of the Rust function is structural. -/
def scan_token : Nat → List Char → Nat → Option (Scanned × Nat)
  | 0, _, _ => none
  | fuel + 1, src, i =>
    let i₀ := skip_whitespace src i
    let start := bytePos src i₀
    match src.get? i₀ with
    | none => none
    | some ch =>
      if ch = '=' then
        match src.get? (i₀ + 1) with
        | none => none
        | some c2 =>
          let tok : TokenType :=
            if c2 = '=' then .EqualsEquals
            else if c2 = '>' then .Arrow
            else .Equals
          some (.ok (mkSpanned src (i₀ + 2) start tok), i₀ + 2)
      else if ch = '/' then
        if src.get? (i₀ + 1) = some '/' then
          let r := read_while (fun c => c ≠ newline) src i₀
          scan_token fuel src r.2
        else some (consume_once src i₀ start .Slash)
      else if ch = '.' then
        let r := read_while (fun c => c = '.') src i₀
        let i₁ := r.2
        if r.1.length = 1 then some (.ok (mkSpanned src i₁ start .Dot), i₁)
        else if r.1.length = 3 then
          some (.ok (mkSpanned src i₁ start .Varargs), i₁)
        else
          some (.error (Spanned.new start (bytePos src i₁ - 1)
            (.LexingError (some "too many dots"))), i₁)
      else if ch = singleQuote then some (scan_char src i₀ start)
      else if ch = '!' then some (consume_with src i₀ start '=' .Bang .BangEquals)
      else if ch = '+' then some (consume_double src i₀ start '+' .Plus .PlusPlus)
      else if ch = '-' then some (consume_double src i₀ start '-' .Minus .MinusMinus)
      else if ch = '<' then some (consume_with src i₀ start '=' .Smaller .SmallerEquals)
      else if ch = '>' then some (consume_with src i₀ start '=' .Greater .GreaterEquals)
      else if ch = '&' then some (consume_double src i₀ start '&' .Ampersand .AmpersandAmpersand)
      else if ch = '|' then some (consume_double src i₀ start '|' .Pipe .PipePipe)
      else if ch = '*' then some (consume_once src i₀ start .Star)
      else if ch = '%' then some (consume_once src i₀ start .Percent)
      else if ch = ':' then some (consume_once src i₀ start .Colon)
      else if ch = ';' then some (consume_once src i₀ start .Semicolon)
      else if ch = '(' then some (consume_once src i₀ start .LeftParen)
      else if ch = ')' then some (consume_once src i₀ start .RightParen)
      else if ch = Char.ofNat 123 then some (consume_once src i₀ start .LeftBrace)
      else if ch = Char.ofNat 125 then some (consume_once src i₀ start .RightBrace)
      else if ch = '[' then some (consume_once src i₀ start .LeftBracket)
      else if ch = ']' then some (consume_once src i₀ start .RightBracket)
      else if ch = '?' then some (consume_once src i₀ start .Question)
      else if ch = '@' then some (consume_once src i₀ start .At)
      else if ch = '^' then some (consume_once src i₀ start .Caret)
      else if ch = ',' then some (consume_once src i₀ start .Comma)
      else if ch = doubleQuote then some (scan_string src i₀)
      else if rustIsAlphabetic ch then some (scan_identifier src i₀)
      else if ch.isDigit then some (scan_number src i₀)
      else
        some (.error ⟨⟨start, start⟩, .LexingError none⟩, i₀ + 1)

/-- Driving the lexer as an iterator: the list of all items `next()`
yields.  The fuel bounds the number of tokens; callers pass
`src.length + 2`, larger than any possible token count. -/
def lexAll : Nat → List Char → Nat → List Scanned
  | 0, _, _ => []
  | fuel + 1, src, i =>
    match scan_token (src.length + 1) src i with
    | none => []
    | some (r, i') => r :: lexAll fuel src i'

/-- The full output stream of `Lexer::new(source)`. -/
def lexSource (src : List Char) : List Scanned :=
  lexAll (src.length + 2) src 0

/-! ## Types (`src/types/types.rs`) and AST (`src/ast/ast.rs`)

`types.rs` gives `Array` a `size: Option<u64>` while the parser
(`src/parser/parser.rs`) constructs `Array::new(inner, Box::new(size))`
with `size: Option<Expression>`, and the parser also constructs
`Type::Nullable(Nullable::new(inner))` although `types.rs` has no such
variant; `ast.rs` likewise lacks the `EnumDefinition`/`TypeAlias`
declarations and struct methods the parser builds.  The checked-in
revisions have drifted apart, and the embedding follows the parser's
usage (the richer shape), which is what every claim about parser output
refers to; `is_pointer` and friends keep their `types.rs` text, with the
extra variants falling into their catch-all arms. -/

/-- The result of a constructor that may `panic!`. -/
inductive PanicOr (α : Type) where
  | panic (msg : String)
  | value (a : α)
deriving Repr

/-- `Pointer` from `src/types/types.rs`. -/
structure Pointer where
  base_type : Simple
  size : Nat
deriving DecidableEq, Repr

/-- `Pointer::new` from `src/types/types.rs`: panics when the depth
exceeds 2. -/
def Pointer.new (base_type : Simple) (size : Nat) : PanicOr Pointer :=
  if size > 2 then .panic "ERROR : pointer cannot be more than `**` long."
  else .value ⟨base_type, size⟩

/-- `Ref` from `src/types/types.rs`. -/
structure Ref where
  base_type : Simple
  size : Nat
deriving DecidableEq, Repr

/-- `Ref::new` from `src/types/types.rs`: panics when the depth
exceeds 2. -/
def Ref.new (base_type : Simple) (size : Nat) : PanicOr Ref :=
  if size > 2 then .panic "ERROR : ref cannot be more than `&&` long."
  else .value ⟨base_type, size⟩

/-- Modelled from the spec: `Nullable{base: Simple}` (§3 of the
specification).  The parser references a `Nullable` struct that is
missing from the checked-in `types.rs`. -/
structure Nullable where
  base_type : Simple
deriving DecidableEq, Repr

/-- `Nullable::new` (see `Nullable`). -/
def Nullable.new (base_type : Simple) : Nullable := ⟨base_type⟩

mutual
/-- `Type` from `src/types/types.rs`, named `Ty` because `Type` is a Lean
keyword, plus the `Nullable` variant the parser constructs
(`parser.rs` line 749). -/
inductive Ty : Type where
  | Simple (s : Simple)
  | Complex (c : Complex)
  | Nullable (n : Nullable)

/-- `Complex` from `src/types/types.rs`. -/
inductive Complex : Type where
  | Pointer (p : Pointer)
  | Ref (r : Ref)
  | Array (a : Array)

/-- `Array`, with the `size: Option<Expression>` the parser passes
(`Array::new(inner, Box::new(size))`, `parser.rs` line 729). -/
inductive Array : Type where
  | mk (base_type : Simple) (size : Option ExpressionKind)

/-- `ExpressionKind` from `src/ast/ast.rs`.  The Rust `Expression`
wrapper adds only the interior-mutable type slot, which the parser always
leaves empty (`Expression::new`), so expressions are modelled by their
kind alone. -/
inductive ExpressionKind : Type where
  | Error (e : ParseError)
  | NullLiteral
  | DecLiteral (s : String)
  | FloatLiteral (s : String)
  | StringLiteral (s : String)
  | Char (s : String)
  | Reference (op : Spanned TokenType) (e : Spanned ExpressionKind)
  | Dereference (op : Spanned TokenType) (e : Spanned ExpressionKind)
  | Negate (op : Spanned TokenType) (e : Spanned ExpressionKind)
  | BoolNegate (op : Spanned TokenType) (e : Spanned ExpressionKind)
  | Binary (left : Spanned ExpressionKind) (op : Spanned TokenType)
      (right : Spanned ExpressionKind)
  | BoolBinary (left : Spanned ExpressionKind) (op : Spanned TokenType)
      (right : Spanned ExpressionKind)
  | Cast (e : Spanned ExpressionKind) (asTok : Spanned TokenType)
      (ty : Spanned Ty)
  | Identifier (name : String)
  | New (e : Spanned ExpressionKind)
  | SizeOf (ty : Ty)
  | Assignment (left : Spanned ExpressionKind) (eq : Spanned TokenType)
      (value : Spanned ExpressionKind)
  | Call (module : String) (callee : Spanned ExpressionKind)
      (arguments : List (Spanned ExpressionKind))
  | Access (left : Spanned ExpressionKind) (identifier : Spanned String)
  | StructInitialization (identifier : Spanned UserIdentifier)
      (fields : List (Spanned String × Spanned ExpressionKind))
end

/-- `Expression` is its kind (see `ExpressionKind`). -/
abbrev Expression := ExpressionKind

/-- `Expression::new` (the type slot it initialises to `None` is not
modelled). -/
def Expression.new (kind : ExpressionKind) : Expression := kind

/-- `Array::new`. -/
def Array.new (base_type : Simple) (size : Option Expression) : Array :=
  ⟨base_type, size⟩

/-- `Array::base_type` accessor. -/
def Array.base_type : Array → Simple
  | ⟨b, _⟩ => b

/-- `Array::size` accessor. -/
def Array.size : Array → Option Expression
  | ⟨_, s⟩ => s

/-- `Type::is_pointer` from `src/types/types.rs`. -/
def Ty.is_pointer : Ty → Bool
  | .Complex (.Array _) => true
  | .Complex (.Pointer _) => true
  | .Simple .String => true
  | _ => false

/-- `Type::is_integer` from `src/types/types.rs`. -/
def Ty.is_integer : Ty → Bool
  | .Simple (.Integer _) => true
  | _ => false

/-- `Type::is_float` from `src/types/types.rs`. -/
def Ty.is_float : Ty → Bool
  | .Simple (.Float _) => true
  | _ => false

/-- `Type::is_numerical` from `src/types/types.rs`. -/
def Ty.is_numerical (t : Ty) : Bool := t.is_integer || t.is_float

/-- `Type::is_character` from `src/types/types.rs`. -/
def Ty.is_character : Ty → Bool
  | .Simple .Character => true
  | _ => false

/-- `Expression::is_error` from `src/ast/ast.rs`. -/
def Expression.is_error : Expression → Bool
  | .Error _ => true
  | _ => false

/-- `VariableDeclaration` from `src/ast/ast.rs` (the `RefCell` around the
type annotation is interior mutability only). -/
structure VariableDeclaration where
  name : Spanned String
  value : Spanned Expression
  eq : Spanned TokenType
  ty : Option (Spanned Ty)

/-- `Parameter` from `src/ast/ast.rs` (a tuple struct of the name and the
type). -/
structure Parameter where
  ident : Spanned String
  ty : Spanned Ty

/-- `Parameter::new`. -/
def Parameter.new (ident : Spanned String) (ty : Spanned Ty) : Parameter :=
  ⟨ident, ty⟩

/-- `ParameterList` from `src/ast/ast.rs`. -/
structure ParameterList where
  varargs : Bool
  parameters : List Parameter

/-- `ParameterList::default()`. -/
def ParameterList.default : ParameterList := ⟨false, []⟩

/-- `ArgumentList` from `src/ast/ast.rs`. -/
abbrev ArgumentList := List (Spanned Expression)

/-- `InitializerList` from `src/ast/ast.rs`. -/
abbrev InitializerList := List (Spanned String × Spanned Expression)

mutual
/-- `Statement` from `src/ast/ast.rs` (the `Box`es and the
`IfStatement`/`WhileStatement` structs are flattened into constructor
arguments; `Block` is its list of statements). -/
inductive Statement : Type where
  | VariableDeclaration (d : VariableDeclaration)
  | IfStatement (condition : Spanned Expression)
      (then_block : List Statement) (else_branch : Option Else)
  | WhileStatement (condition : Spanned Expression)
      (body : List Statement)
  | ReturnStatement (e : Option (Spanned Expression))
  | DeleteStatement (e : Spanned Expression)
  | ExpressionStatement (e : Spanned Expression)

/-- `Else` from `src/ast/ast.rs`. -/
inductive Else : Type where
  | IfStatement (s : Statement)
  | Block (b : List Statement)

/-- `TopLevel` from `src/ast/ast.rs` (field names as in the parser's
constructions). -/
inductive TopLevel : Type where
  | FunctionDeclaration (name : Spanned String)
      (arguments : ParameterList) (body : List Statement)
      (return_type : Spanned Ty) (is_external : Bool)
  | Import (name : Spanned String)
  | TypeDeclaration (ty : TypeDeclaration)
  | Error (error : Spanned ParseError)

/-- `TypeDeclaration` in the shape the parser constructs
(`StructDefinition` with methods, `EnumDefinition`, `TypeAlias`;
the checked-in `ast.rs` is an older revision that lacks these). -/
inductive TypeDeclaration : Type where
  | StructDefinition (name : Spanned String)
      (fields : List (Spanned String × Spanned Ty))
      (methods : List TopLevel)
  | EnumDefinition (name : Spanned String)
      (fields : List (Spanned String × Spanned Ty))
  | TypeAlias (name : Spanned String)
      (generic_parameters : List (Spanned String)) (ty : Spanned Ty)
end

/-- `Block` from `src/ast/ast.rs`. -/
abbrev Block := List Statement

/-- `Program` from `src/ast/ast.rs` (`pub Vec<TopLevel>`). -/
abbrev Program := List TopLevel

/-! ## Parser state and plumbing (`src/parser/parser.rs`)

`Parser<'a, T>` owns a peekable scanner, the source, and `error_count`.
The peekable scanner is the not-yet-consumed suffix of the lexer's
output.  A parser computation takes the state to an outcome and a new
state; the outcome is `ok`, a recoverable `Err` (Rust's `Result`), an
aborted process (Rust's `panic!`), or exhausted fuel (no Rust
counterpart; drivers pass enough fuel that it never occurs). -/

/-- Outcome of a parser computation. -/
inductive POut (α : Type) where
  | ok (a : α)
  | err (e : Spanned ParseError)
  | panic (msg : String)
  | nofuel

/-- Parser state: the source, the unconsumed token stream, and
`error_count`. -/
structure PState where
  source : Source
  tokens : List Scanned
  errorCount : Nat

/-- A parser computation (state in, outcome and state out). -/
def PM (α : Type) : Type := PState → POut α × PState

instance : Monad PM where
  pure a := fun s => (.ok a, s)
  bind x f := fun s =>
    match x s with
    | (.ok a, s') => f a s'
    | (.err e, s') => (.err e, s')
    | (.panic m, s') => (.panic m, s')
    | (.nofuel, s') => (.nofuel, s')

/-- Run a computation and catch its recoverable error, like a Rust caller
matching on the returned `Result` (panics still propagate). -/
def pmTry (x : PM α) : PM (Except (Spanned ParseError) α) := fun s =>
  match x s with
  | (.ok a, s') => (.ok (.ok a), s')
  | (.err e, s') => (.ok (.error e), s')
  | (.panic m, s') => (.panic m, s')
  | (.nofuel, s') => (.nofuel, s')

/-- `panic!`. -/
def pmPanic (msg : String) : PM α := fun s => (.panic msg, s)

/-- Fail with a recoverable error. -/
def pmErr (e : Spanned ParseError) : PM α := fun s => (.err e, s)

/-- `Parser::at_end`. -/
def atEnd : PM Bool := fun s => (.ok s.tokens.isEmpty, s)

/-- `self.scanner.peek()` (cloned). -/
def pmPeek : PM (Option Scanned) := fun s => (.ok s.tokens.head?, s)

/-- `Parser::peek_equals` as a state predicate. -/
def peekEqualsS (s : PState) (expected : TokenType) : Bool :=
  match s.tokens.head? with
  | some (.ok sp) => sp.node == expected
  | _ => false

/-- `Parser::peek_equals`. -/
def pmPeekEquals (expected : TokenType) : PM Bool := fun s =>
  (.ok (peekEqualsS s expected), s)

/-- `Parser::eof`: a `LexingError("unexpected eof")` at the end of the
source, counted by `lexer_error`. -/
def eofErr (s : PState) : Spanned ParseError × PState :=
  let l := byteLength s.source.code
  (⟨⟨l, l⟩, .LexingError (some "unexpected eof")⟩,
   { s with errorCount := s.errorCount + 1 })

/-- `Parser::advance`: the next `Scanned` item, or `eof()`. -/
def advanceRaw (s : PState) : Scanned × PState :=
  match s.tokens with
  | t :: rest => (t, { s with tokens := rest })
  | [] => let (e, s') := eofErr s; (.error e, s')

/-- `Parser::advance` with the `?` applied (an `Err` item propagates). -/
def pmAdvance : PM (Spanned TokenType) := fun s =>
  match advanceRaw s with
  | (.ok t, s') => (.ok t, s')
  | (.error e, s') => (.err e, s')

/-- `Parser::advance` keeping the `Result` (used by `parse`'s skip loop
and by `sync`). -/
def pmAdvanceRaw : PM Scanned := fun s =>
  let (r, s') := advanceRaw s
  (.ok r, s')

/-- `Parser::consume_error`: count the error and fail with a
`ConsumeError`. -/
def pmConsumeError (actual : Spanned TokenType) (expected : String) :
    PM α := fun s =>
  (.err ⟨actual.span, .ConsumeError actual.node expected⟩,
   { s with errorCount := s.errorCount + 1 })

/-- `Parser::consume`. -/
def pmConsume (expected : TokenType) : PM (Spanned TokenType) := fun s =>
  match s.tokens with
  | (.ok p) :: rest =>
    if p.node == expected then (.ok p, { s with tokens := rest })
    else pmConsumeError p (tokenText expected) s
  | (.error e) :: _ => (.err e, s)
  | [] => let (e, s') := eofErr s; (.err e, s')

/-- `Parser::match_token`. -/
def pmMatchToken (expected : TokenType) : PM Bool := do
  if ← pmPeekEquals expected then
    let _ ← pmConsume expected
    return true
  else
    return false

/-- `&self.source.name`. -/
def pmSourceName : PM String := fun s => (.ok s.source.name, s)

/-- `Parser::prefix_error`. -/
def pmPrefixError (token : Spanned TokenType) : PM α := fun s =>
  (.err ⟨token.span,
    .PrefixError ("invalid token in prefix expression '" ++
      tokenText token.node ++ "'")⟩,
   { s with errorCount := s.errorCount + 1 })

/-- `Parser::infix_error`. -/
def pmInfixError (token : Spanned TokenType) : PM α := fun s =>
  (.err ⟨token.span,
    .InfixError ("invalid token in infix expression '" ++
      tokenText token.node ++ "'")⟩,
   { s with errorCount := s.errorCount + 1 })

/-- `error_statement` from `src/parser/parser.rs`. -/
def error_statement (error : Spanned ParseError) : Statement :=
  .ExpressionStatement
    (Spanned.new error.span.start error.span.«end»
      (Expression.new (.Error error.node)))

/-- The loop of `Parser::sync` on the token stream: advance until the
previously consumed item was a `;` or the next token starts a statement
(`Type`/`Fn`/`If`/`Let`/`Return`); an `Err` item or the end of the stream
also stops it. -/
def sync_tokens (prev : Scanned) : List Scanned → List Scanned
  | (.ok peek) :: rest =>
    if (match prev with
        | .ok sp => sp.node == TokenType.Semicolon
        | _ => false) then
      (Except.ok peek) :: rest
    else if peek.node == TokenType.Type || peek.node == TokenType.Fn ||
        peek.node == TokenType.If || peek.node == TokenType.Let ||
        peek.node == TokenType.Return then
      (Except.ok peek) :: rest
    else
      sync_tokens (.ok peek) rest
  | ts => ts

/-- `Parser::sync`: one unconditional `advance`, then the loop. -/
def sync (s : PState) : PState :=
  let (prev, s₁) := advanceRaw s
  { s₁ with tokens := sync_tokens prev s₁.tokens }

/-- `Parser::sync` as a computation. -/
def pmSync : PM Unit := fun s => (.ok (), sync s)

/-- `self.error_count += 1`. -/
def pmIncError : PM Unit := fun s =>
  (.ok (), { s with errorCount := s.errorCount + 1 })

/-- The skip loop in `Parser::parse` after a failed top-level item:
advance until the next token is `Fn` or `Type` or the stream ends;
an `Err` item from the lexer makes it `panic!`. -/
def skip_top_level (name : String) :
    List Scanned → POut Unit × List Scanned
  | [] => (.ok (), [])
  | t :: rest =>
    if (match t with
        | .ok sp => sp.node == TokenType.Fn || sp.node == TokenType.Type
        | _ => false) then
      (.ok (), t :: rest)
    else
      match t with
      | .ok _ => skip_top_level name rest
      | .error _ => (.panic ("error in " ++ name), rest)

/-- The skip loop as a computation. -/
def pmSkipTopLevel : PM Unit := fun s =>
  let (r, ts) := skip_top_level s.source.name s.tokens
  (r, { s with tokens := ts })

/-- `Parser::next_higher_precedence`. -/
def pmNextHigherPrecedence (precedence : Precedence) (no_struct : Bool) :
    PM Bool := fun s =>
  (.ok (match s.tokens.head? with
    | some (.ok sp) =>
      if sp.node == TokenType.LeftBrace then
        !no_struct && Precedence.gt sp.node.precedence precedence
      else
        Precedence.gt sp.node.precedence precedence
    | _ => false), s)

/-- `Parser::consume_identifier`. -/
def consume_identifier : PM (Spanned String) := fun s =>
  match s.tokens with
  | (.ok p) :: rest =>
    match p.node with
    | .Identifier identifier =>
      (.ok ⟨p.span, identifier⟩, { s with tokens := rest })
    | _ => pmConsumeError p "identifier" s
  | (.error e) :: _ => (.err e, s)
  | [] => let (e, s') := eofErr s; (.err e, s')

/-- `Parser::consume_string`. -/
def consume_string : PM (Spanned String) := fun s =>
  match s.tokens with
  | (.ok p) :: rest =>
    match p.node with
    | .StringLiteral literal =>
      (.ok ⟨p.span, literal⟩, { s with tokens := rest })
    | _ => pmConsumeError p "string" s
  | (.error e) :: _ => (.err e, s)
  | [] => let (e, s') := eofErr s; (.err e, s')

/-- `Parser::user_identifier`. -/
def user_identifier (expression : Spanned Expression) : PM UserIdentifier :=
  match expression.node with
  | .Identifier identifier => do
    let n ← pmSourceName
    return UserIdentifier.new n identifier
  | .Access left identifier =>
    match left.node with
    | .Identifier l => pure (UserIdentifier.new l identifier.node)
    | _ => pmErr ⟨left.span,
        .InternalError "the left side of this expression has to be an identifier"⟩
  | _ => pmErr ⟨expression.span,
      .InternalError "the expression for a user identifier has to be an identifier or access expression"⟩

/-- `Parser::get_info_about_callee`. -/
def get_info_about_callee (expression : Spanned Expression) :
    PM (String × Spanned Expression) :=
  match expression.node with
  | .Access left identifier =>
    match left.node with
    | .Identifier module =>
      pure (module,
        ⟨identifier.span, Expression.new (.Identifier identifier.node)⟩)
    | _ => do
      let n ← pmSourceName
      pure (n, expression)
  | _ => do
    let n ← pmSourceName
    pure (n, expression)

/-- `Parser::import_statement`. -/
def import_statement : PM TopLevel := do
  let _ ← pmConsume .Import
  let name ← consume_string
  let _ ← pmConsume .Semicolon
  return .Import name

/-! ## The recursive parser (`src/parser/parser.rs`)

Every `while` loop of the Rust parser becomes a recursive function; the
whole mutually recursive nest is fuelled, each function consuming one
unit of fuel per call. -/

mutual

/-- The loop of `Parser::parse`: one iteration per top-level item, with
the recovery path (append a `TopLevel::Error`, count the error, skip to
the next `Fn`/`Type`, panicking on a lexical error met while
skipping). -/
def parseLoop : Nat → PM (List TopLevel)
  | 0 => fun s => (.nofuel, s)
  | f + 1 => do
    if (← atEnd) then
      return []
    else
      match ← pmTry (top_level_declaration f) with
      | .ok d =>
        let rest ← parseLoop f
        return d :: rest
      | .error error => do
        pmIncError
        pmSkipTopLevel
        let rest ← parseLoop f
        return TopLevel.Error error :: rest

/-- `Parser::top_level_declaration`. -/
def top_level_declaration : Nat → PM TopLevel
  | 0 => fun s => (.nofuel, s)
  | f + 1 => do
    if ← pmPeekEquals .Import then
      import_statement
    else if ← pmPeekEquals .Type then
      type_declaration_statement f
    else
      function_definition f

/-- `Parser::function_definition`. -/
def function_definition : Nat → PM TopLevel
  | 0 => fun s => (.nofuel, s)
  | f + 1 => do
    let is_external ← pmPeekEquals .Extern
    if is_external then
      let _ ← pmConsume .Extern
    let _ ← pmConsume .Fn
    let name ← consume_identifier
    let arguments ← parameter_list f is_external
    let _ ← pmConsume .Arrow
    let return_type ← consume_type f
    let body ←
      if is_external then do
        let _ ← pmConsume .Semicolon
        pure ([] : List Statement)
      else
        block f
    return .FunctionDeclaration name arguments body return_type is_external

/-- `Parser::type_declaration_statement` (the `trait` arm is
`panic!("NOT IMPLEMENTED YET")`). -/
def type_declaration_statement : Nat → PM TopLevel
  | 0 => fun s => (.nofuel, s)
  | f + 1 => do
    let _ ← pmConsume .Type
    let name ← consume_identifier
    if ← pmPeekEquals .Smaller then
      type_alias_declaration f name
    else if ← pmPeekEquals .Struct then
      struct_declaration f name
    else if ← pmPeekEquals .Trait then
      pmPanic "NOT IMPLEMENTED YET"
    else if ← pmPeekEquals .Enum then
      enum_declaration f name
    else
      pmErr ⟨name.span,
        .InternalError "tried to define something that does not belong to top level"⟩

/-- `Parser::struct_declaration` (generic parameters are parsed and
discarded). -/
def struct_declaration : Nat → Spanned String → PM TopLevel
  | 0, _ => fun s => (.nofuel, s)
  | f + 1, name => do
    let _ ← pmConsume .Struct
    if ← pmPeekEquals .Smaller then
      let _ ← consume_generic_parameters f
    let _ ← pmConsume .LeftBrace
    let fm ← do
      let e ← atEnd
      let rb ← pmPeekEquals .RightBrace
      if !e && !rb then structLoop f
      else pure (([], []) : List (Spanned String × Spanned Ty) × List TopLevel)
    let _ ← pmConsume .RightBrace
    return .TypeDeclaration (.StructDefinition name fm.1 fm.2)

/-- The member loop of `struct_declaration`: an optional `@field: Type`,
an optional method (a non-function `function_definition` result panics),
then either stop at `}`/end or consume `;` and continue. -/
def structLoop : Nat → PM (List (Spanned String × Spanned Ty) × List TopLevel)
  | 0 => fun s => (.nofuel, s)
  | f + 1 => do
    let mf ←
      if ← pmPeekEquals .At then do
        let _ ← pmAdvance
        let field_name ← consume_identifier
        let _ ← pmConsume .Colon
        let field_type ← consume_type f
        pure (some (field_name, field_type))
      else pure none
    let mm ←
      if ← pmPeekEquals .Fn then do
        let method ← function_definition f
        match method with
        | .FunctionDeclaration n a b rt ex =>
          pure (some (TopLevel.FunctionDeclaration n a b rt ex))
        | _ => pmPanic "expected a method declaration"
      else pure none
    let e ← atEnd
    let rb ← pmPeekEquals .RightBrace
    if e || rb then
      return (mf.toList, mm.toList)
    else do
      let _ ← pmConsume .Semicolon
      let rest ← structLoop f
      return (mf.toList ++ rest.1, mm.toList ++ rest.2)

/-- `Parser::enum_declaration`. -/
def enum_declaration : Nat → Spanned String → PM TopLevel
  | 0, _ => fun s => (.nofuel, s)
  | f + 1, name => do
    let ty ←
      if ← pmPeekEquals .Colon then do
        let _ ← pmConsume .Colon
        consume_type f
      else
        pure (Spanned.new 0 0 (Ty.Simple .Void))
    let _ ← pmConsume .LeftBrace
    let fields ← do
      let e ← atEnd
      let rb ← pmPeekEquals .RightBrace
      if !e && !rb then enumLoop f ty
      else pure ([] : List (Spanned String × Spanned Ty))
    let _ ← pmConsume .RightBrace
    return .TypeDeclaration (.EnumDefinition name fields)

/-- The variant loop of `enum_declaration` (each variant clones the
backing type; there is no separator). -/
def enumLoop : Nat → Spanned Ty → PM (List (Spanned String × Spanned Ty))
  | 0, _ => fun s => (.nofuel, s)
  | f + 1, ty => do
    let field_name ← consume_identifier
    let e ← atEnd
    let rb ← pmPeekEquals .RightBrace
    if e || rb then
      return [(field_name, ty)]
    else do
      let rest ← enumLoop f ty
      return (field_name, ty) :: rest

/-- `Parser::type_alias_declaration`. -/
def type_alias_declaration : Nat → Spanned String → PM TopLevel
  | 0, _ => fun s => (.nofuel, s)
  | f + 1, name => do
    let generic_parameters ← consume_generic_parameters f
    let _ ← pmConsume .Equals
    let ty ← consume_type f
    let _ ← pmConsume .Semicolon
    return .TypeDeclaration (.TypeAlias name generic_parameters ty)

/-- `Parser::consume_generic_parameters`. -/
def consume_generic_parameters : Nat → PM (List (Spanned String))
  | 0 => fun s => (.nofuel, s)
  | f + 1 => do
    let _ ← pmConsume .Smaller
    let gps ← do
      let e ← atEnd
      let gt ← pmPeekEquals .Greater
      if !e && !gt then gpLoop f
      else pure ([] : List (Spanned String))
    let _ ← pmConsume .Greater
    return gps

/-- The identifier loop of `consume_generic_parameters`. -/
def gpLoop : Nat → PM (List (Spanned String))
  | 0 => fun s => (.nofuel, s)
  | f + 1 => do
    let g ← consume_identifier
    let e ← atEnd
    let gt ← pmPeekEquals .Greater
    if e || gt then
      return [g]
    else do
      let _ ← pmConsume .Comma
      let rest ← gpLoop f
      return g :: rest

/-- `Parser::parameter_list`. -/
def parameter_list : Nat → Bool → PM ParameterList
  | 0, _ => fun s => (.nofuel, s)
  | f + 1, is_external => do
    let _ ← pmConsume .LeftParen
    if ← pmMatchToken .RightParen then
      return ParameterList.default
    else do
      let pv ← paramLoop f is_external
      let _ ← pmConsume .RightParen
      return ⟨pv.2, pv.1⟩

/-- The parameter loop of `parameter_list`: `...` panics unless the
function is external, otherwise contributes the final `"..."` pseudo
parameter and stops the loop. -/
def paramLoop : Nat → Bool → PM (List Parameter × Bool)
  | 0, _ => fun s => (.nofuel, s)
  | f + 1, is_external => do
    if ← pmPeekEquals .RightParen then
      return ([], false)
    else if ← pmPeekEquals .Varargs then
      if !is_external then
        pmPanic "varargs are only supported in external functions"
      else do
        let varargs_token ← pmConsume .Varargs
        return ([Parameter.new ⟨varargs_token.span, "..."⟩
          ⟨varargs_token.span, Ty.Simple .VarArgs⟩], true)
    else do
      let identifier ← consume_identifier
      let _ ← pmConsume .Colon
      let ty ← consume_type f
      if !(← pmPeekEquals .RightParen) then
        let _ ← pmConsume .Comma
      let rest ← paramLoop f is_external
      return (Parameter.new identifier ty :: rest.1, rest.2)

/-- `Parser::argument_list`. -/
def argument_list : Nat → PM ArgumentList
  | 0 => fun s => (.nofuel, s)
  | f + 1 => do
    let e ← atEnd
    let rp ← pmPeekEquals .RightParen
    if e || rp then
      return []
    else do
      let a ← expression f false
      if !(← pmPeekEquals .RightParen) then
        let _ ← pmConsume .Comma
      let rest ← argument_list f
      return a :: rest

/-- `Parser::initializer_list`. -/
def initializer_list : Nat → PM InitializerList
  | 0 => fun s => (.nofuel, s)
  | f + 1 => do
    let e ← atEnd
    let rb ← pmPeekEquals .RightBrace
    if e || rb then
      return []
    else do
      let identifier ← consume_identifier
      let _ ← pmConsume .Colon
      let expr ← expression f false
      if !(← pmPeekEquals .RightBrace) then
        let _ ← pmConsume .Comma
      let rest ← initializer_list f
      return (identifier, expr) :: rest

/-- `Parser::block`. -/
def block : Nat → PM (List Statement)
  | 0 => fun s => (.nofuel, s)
  | f + 1 => do
    let _ ← pmConsume .LeftBrace
    let statements ← blockLoop f
    if !(← atEnd) then
      let _ ← pmConsume .RightBrace
    return statements

/-- The statement loop of `Parser::block` with its recovery path:
count the error, `sync()`, append the `error_statement` sentinel. -/
def blockLoop : Nat → PM (List Statement)
  | 0 => fun s => (.nofuel, s)
  | f + 1 => do
    let e ← atEnd
    let rb ← pmPeekEquals .RightBrace
    if e || rb then
      return []
    else
      match ← pmTry (statementF f) with
      | .ok st => do
        let rest ← blockLoop f
        return st :: rest
      | .error error => do
        pmIncError
        pmSync
        let rest ← blockLoop f
        return error_statement error :: rest

/-- `Parser::statement`. -/
def statementF : Nat → PM Statement
  | 0 => fun s => (.nofuel, s)
  | f + 1 => do
    let pk ← pmPeek
    match pk with
    | some (.ok sp) =>
      match sp.node with
      | .Let => do
        let declaration ← let_declaration f
        let _ ← pmConsume .Semicolon
        return declaration
      | .If => if_statement f
      | .Return => return_statement f
      | .While => while_statement f
      | .Delete => delete_statement f
      | _ => do
        let e ← expression f false
        let _ ← pmConsume .Semicolon
        return .ExpressionStatement e
    | _ => do
      let e ← expression f false
      let _ ← pmConsume .Semicolon
      return .ExpressionStatement e

/-- `Parser::let_declaration` (an `Err` from `match_token(Colon)` leaves
the annotation `None`, as the Rust `if let Ok(true)` does). -/
def let_declaration : Nat → PM Statement
  | 0 => fun s => (.nofuel, s)
  | f + 1 => do
    let _ ← pmConsume .Let
    let name ← consume_identifier
    let ty ←
      match ← pmTry (pmMatchToken .Colon) with
      | .ok true => do
        let t ← consume_type f
        pure (some t)
      | _ => pure none
    let eq ← pmConsume .Equals
    let value ← expression f false
    return .VariableDeclaration ⟨name, value, eq, ty⟩

/-- `Parser::if_statement`. -/
def if_statement : Nat → PM Statement
  | 0 => fun s => (.nofuel, s)
  | f + 1 => do
    let _ ← pmConsume .If
    let condition ← expression f true
    let then_block ← block f
    let else_branch ←
      if ← pmPeekEquals .Else then do
        let _ ← pmConsume .Else
        let eb ←
          if ← pmPeekEquals .If then do
            let else_if ← if_statement f
            pure (Else.IfStatement else_if)
          else do
            let b ← block f
            pure (Else.Block b)
        pure (some eb)
      else pure none
    return .IfStatement condition then_block else_branch

/-- `Parser::return_statement`. -/
def return_statement : Nat → PM Statement
  | 0 => fun s => (.nofuel, s)
  | f + 1 => do
    let _ ← pmConsume .Return
    let r ←
      if ← pmPeekEquals .Semicolon then
        pure (none : Option (Spanned Expression))
      else do
        let e ← expression f false
        pure (some e)
    let _ ← pmConsume .Semicolon
    return .ReturnStatement r

/-- `Parser::while_statement`. -/
def while_statement : Nat → PM Statement
  | 0 => fun s => (.nofuel, s)
  | f + 1 => do
    let _ ← pmConsume .While
    let condition ← expression f true
    let body ← block f
    return .WhileStatement condition body

/-- `Parser::delete_statement`. -/
def delete_statement : Nat → PM Statement
  | 0 => fun s => (.nofuel, s)
  | f + 1 => do
    let _ ← pmConsume .Delete
    let e ← expression f false
    let _ ← pmConsume .Semicolon
    return .DeleteStatement e

/-- `Parser::consume_type`. -/
def consume_type : Nat → PM (Spanned Ty)
  | 0 => fun s => (.nofuel, s)
  | f + 1 => do
    let pk ← pmPeek
    match pk with
    | some (.ok peek) =>
      match peek.node with
      | .TypeIdentifier ty => do
        let _ ← pmAdvance
        return ⟨peek.span, .Simple ty⟩
      | .Identifier _ => do
        let e ← parse_expression f .Assignment true
        let identifier ← user_identifier e
        return ⟨e.span, .Simple (.UserDefinedType identifier)⟩
      | .Star => do
        let first ← pmAdvance
        let extra ← starCount f .Star
        let counter := 1 + extra
        let ty ← consume_type f
        match ty.node with
        | .Simple s =>
          match Pointer.new s counter with
          | .panic m => pmPanic m
          | .value p =>
            return Spanned.new first.span.start ty.span.«end»
              (.Complex (.Pointer p))
        | _ => pmErr ⟨ty.span,
            .InternalError "reached unreachable code while attempting to parse a pointer type"⟩
      | .Ampersand => do
        let first ← pmAdvance
        let extra ← starCount f .Ampersand
        let counter := 1 + extra
        let ty ← consume_type f
        match ty.node with
        | .Simple s =>
          match Ref.new s counter with
          | .panic m => pmPanic m
          | .value r =>
            return Spanned.new first.span.start ty.span.«end»
              (.Complex (.Ref r))
        | _ => pmErr ⟨ty.span,
            .InternalError "reached unreachable code while attempting to parse a reference type"⟩
      | .LeftBracket => do
        let first ← pmAdvance
        let size ← arrayLoop f none
        let ty ← consume_type f
        match ty.node with
        | .Simple s =>
          return Spanned.new first.span.start ty.span.«end»
            (.Complex (.Array (Array.new s size)))
        | _ => pmErr ⟨ty.span,
            .InternalError "reached unreachable code while attempting to parse an array type"⟩
      | .Question => do
        let first ← pmAdvance
        let inner_type ← consume_type f
        match inner_type.node with
        | .Simple s =>
          return Spanned.new first.span.start inner_type.span.«end»
            (.Nullable (Nullable.new s))
        | _ => pmErr ⟨inner_type.span,
            .InternalError "reached unreachable code while attempting to parse a nullable type"⟩
      | _ => pmConsumeError peek "type"
    | some (.error e) => pmErr e
    | none => fun s => let (e, s') := eofErr s; (.err e, s')

/-- The `while self.match_token(...)? { counter += 1 }` loops of the
pointer and reference arms of `consume_type` (they return the number of
extra `*`/`&` tokens consumed). -/
def starCount : Nat → TokenType → PM Nat
  | 0, _ => fun s => (.nofuel, s)
  | f + 1, tok => do
    if ← pmMatchToken tok then
      let n ← starCount f tok
      return n + 1
    else
      return 0

/-- The size loop of the array arm of `consume_type`
(`while !self.match_token(RightBracket)?`): `[?]` resets the size to
`None`, anything else parses a size expression whose `Err` is
`.unwrap()`ed, i.e. panics. -/
def arrayLoop : Nat → Option Expression → PM (Option Expression)
  | 0, _ => fun s => (.nofuel, s)
  | f + 1, size => do
    if ← pmMatchToken .RightBracket then
      return size
    else if ← pmPeekEquals .Question then do
      let _ ← pmAdvance
      arrayLoop f none
    else
      match ← pmTry (expression f true) with
      | .ok sp => arrayLoop f (some sp.node)
      | .error _ =>
        pmPanic "called `Result::unwrap()` on an `Err` value"

/-- `Parser::parse_expression` (the Pratt core). -/
def parse_expression : Nat → Precedence → Bool → PM (Spanned Expression)
  | 0, _, _ => fun s => (.nofuel, s)
  | f + 1, precedence, no_struct => do
    let token ← pmAdvance
    let left ← prefixF f token no_struct
    pratLoop f precedence no_struct left

/-- The `while self.next_higher_precedence(..)` loop of
`parse_expression`. -/
def pratLoop : Nat → Precedence → Bool → Spanned Expression →
    PM (Spanned Expression)
  | 0, _, _, _ => fun s => (.nofuel, s)
  | f + 1, precedence, no_struct, left => do
    if ← pmNextHigherPrecedence precedence no_struct then
      let token ← pmAdvance
      let left' ← infixF f token left no_struct
      pratLoop f precedence no_struct left'
    else
      return left

/-- `Parser::expression`: the Pratt climb at `Assignment` level, then the
right-associative assignment loop. -/
def expression : Nat → Bool → PM (Spanned Expression)
  | 0, _ => fun s => (.nofuel, s)
  | f + 1, no_struct => do
    let left ← parse_expression f .Assignment no_struct
    assignLoop f no_struct left

/-- The `while self.peek_equals(&Equals)` loop of `Parser::expression`. -/
def assignLoop : Nat → Bool → Spanned Expression → PM (Spanned Expression)
  | 0, _, _ => fun s => (.nofuel, s)
  | f + 1, no_struct, left => do
    if ← pmPeekEquals .Equals then
      let eq ← pmConsume .Equals
      let value ← expression f no_struct
      assignLoop f no_struct
        (Spanned.new left.span.start value.span.«end»
          (Expression.new (.Assignment left eq value)))
    else
      return left

/-- `Parser::prefix`. -/
def prefixF : Nat → Spanned TokenType → Bool → PM (Spanned Expression)
  | 0, _, _ => fun s => (.nofuel, s)
  | f + 1, token, no_struct =>
    match token.node with
    | .NullLiteral => pure ⟨token.span, Expression.new .NullLiteral⟩
    | .DecLiteral literal =>
      pure ⟨token.span, Expression.new (.DecLiteral literal)⟩
    | .FloatLiteral literal =>
      pure ⟨token.span, Expression.new (.FloatLiteral literal)⟩
    | .StringLiteral literal =>
      pure ⟨token.span, Expression.new (.StringLiteral literal)⟩
    | .Char literal => pure ⟨token.span, Expression.new (.Char literal)⟩
    | .Sizeof => do
      let ty ← consume_type f
      return ⟨ty.span, Expression.new (.SizeOf ty.node)⟩
    | .New => do
      let e ← expression f no_struct
      return ⟨e.span, Expression.new (.New ⟨e.span, e.node⟩)⟩
    | .LeftParen => do
      let e ← expression f false
      let _ ← pmConsume .RightParen
      return ⟨⟨e.span.start - 1, e.span.«end» + 1⟩, e.node⟩
    | .Minus => do
      let next ← parse_expression f .Unary no_struct
      return Spanned.new token.span.start next.span.«end»
        (Expression.new (.Negate token next))
    | .Ampersand => do
      let next ← parse_expression f .Unary no_struct
      return Spanned.new token.span.start next.span.«end»
        (Expression.new (.Reference token next))
    | .Star => do
      let next ← parse_expression f .Unary no_struct
      return Spanned.new token.span.start next.span.«end»
        (Expression.new (.Dereference token next))
    | .Bang => do
      let next ← parse_expression f .Unary no_struct
      return Spanned.new token.span.start next.span.«end»
        (Expression.new (.BoolNegate token next))
    | .Identifier name => do
      let isInit ←
        if !no_struct then pmMatchToken .LeftBrace
        else pure false
      if isInit then do
        let init_list ← initializer_list f
        let brace ← pmConsume .RightBrace
        let n ← pmSourceName
        return Spanned.new token.span.start brace.span.«end»
          (Expression.new (.StructInitialization
            ⟨token.span, UserIdentifier.new n name⟩ init_list))
      else
        pure ⟨token.span, Expression.new (.Identifier name)⟩
    | _ => pmPrefixError token

/-- `Parser::infix`. -/
def infixF : Nat → Spanned TokenType → Spanned Expression → Bool →
    PM (Spanned Expression)
  | 0, _, _, _ => fun s => (.nofuel, s)
  | f + 1, token, left, no_struct =>
    match token.node with
    | .EqualsEquals | .BangEquals | .Smaller | .SmallerEquals | .Greater
    | .GreaterEquals | .AmpersandAmpersand | .PipePipe => do
      let right ← parse_expression f token.node.precedence no_struct
      return Spanned.new left.span.start right.span.«end»
        (Expression.new (.BoolBinary left token right))
    | .Plus | .Minus | .Star | .Slash | .Percent => do
      let right ← parse_expression f token.node.precedence no_struct
      return Spanned.new left.span.start right.span.«end»
        (Expression.new (.Binary left token ⟨right.span, right.node⟩))
    | .As => do
      let ty ← consume_type f
      return Spanned.new left.span.start ty.span.«end»
        (Expression.new (.Cast left token ty))
    | .Dot => do
      let identifier ← consume_identifier
      return Spanned.new left.span.start identifier.span.«end»
        (Expression.new (.Access left identifier))
    | .LeftBrace => do
      let initializer ← initializer_list f
      let brace ← pmConsume .RightBrace
      let span := Span.mk token.span.start brace.span.«end»
      let identifier ← user_identifier left
      return ⟨span, Expression.new (.StructInitialization
        ⟨left.span, identifier⟩ initializer)⟩
    | .LeftParen => do
      let args ← argument_list f
      let rp ← pmConsume .RightParen
      let span := Span.mk left.span.start rp.span.«end»
      let mc ← get_info_about_callee left
      return ⟨span, Expression.new (.Call mc.1 mc.2 args)⟩
    | _ => pmInfixError token

end

/-- `Parser::parse` as a whole-program driver: lex the source, run the
top-level loop with plenty of fuel. -/
def parseSource (name : String) (code : List Char) :
    POut Program × PState :=
  let source : Source := ⟨name, code⟩
  let tokens := lexSource code
  parseLoop ((code.length + 16) * 4) ⟨source, tokens, 0⟩

/-- `Parser::expression(no_struct)` as a driver on a fresh parser, the
public entry point the spec mentions for tests and composition. -/
def expressionSource (name : String) (code : List Char) (no_struct : Bool) :
    POut (Spanned Expression) × PState :=
  let source : Source := ⟨name, code⟩
  let tokens := lexSource code
  expression ((code.length + 16) * 4) no_struct ⟨source, tokens, 0⟩

/-- `Parser::consume_type` as a driver on a fresh parser. -/
def consumeTypeSource (name : String) (code : List Char) :
    POut (Spanned Ty) × PState :=
  consume_type ((code.length + 16) * 4) ⟨⟨name, code⟩, lexSource code, 0⟩

/-! ## Claim-checking definitions -/

/-- The input of scenario S1: `fn main(argc: i32): i32 { return 0; }`. -/
def c1Input : List Char := "fn main(argc: i32): i32 \x7b return 0; \x7d".data

/-- The S1 input with the separator the parser actually consumes
(`TokenType::Arrow`, i.e. `=>`) between the parameter list and the
return type. -/
def c1InputArrow : List Char := "fn main(argc: i32) => i32 \x7b return 0; \x7d".data

/-- The shape claim C1 asserts of the parsed program: exactly one
`FunctionDeclaration` named `main`, not external, with the single
parameter `argc : i32`, return type `i32`, and a body of a single
`return 0;`, with no `Error` items. -/
def c1Shape (p : POut Program × PState) : Bool :=
  match p.1 with
  | .ok [TopLevel.FunctionDeclaration name args body rt ext] =>
    name.node = "main" && ext == false &&
    (match args.parameters with
     | [⟨⟨_, "argc"⟩, ⟨_, Ty.Simple (.Integer ⟨32, true⟩)⟩⟩] => true
     | _ => false) &&
    (match rt.node with
     | Ty.Simple (.Integer ⟨32, true⟩) => true
     | _ => false) &&
    (match body with
     | [Statement.ReturnStatement (some ⟨_, .DecLiteral "0"⟩)] => true
     | _ => false)
  | _ => false

/-- Does the parse produce exactly one `TopLevel::Error` whose payload is
a `ConsumeError` that met a `:` while expecting `=>`? -/
def c1ErrShape (p : POut Program × PState) : Bool :=
  match p.1 with
  | .ok [TopLevel.Error ⟨_, .ConsumeError .Colon "=>"⟩] => true
  | _ => false

/-- A top-level item that fails (`@`) followed by a healthy function: the
recovery path of `parse()` (claim C3). -/
def c3RecoverInput : List Char := "@ fn f() => i32 \x7b \x7d".data

/-- Does the parse produce exactly an `Error` sentinel followed by a
`FunctionDeclaration` named `f`? -/
def c3RecoverShape (p : POut Program × PState) : Bool :=
  match p.1 with
  | .ok [TopLevel.Error _, TopLevel.FunctionDeclaration name _ _ _ _] =>
    name.node = "f"
  | _ => false

/-- Is `a = b = c` parsed as `Assignment(a, Assignment(b, c))`
(claim C6)? -/
def c6AssignShape (p : POut (Spanned Expression) × PState) : Bool :=
  match p.1 with
  | .ok ⟨_, .Assignment ⟨_, .Identifier "a"⟩ _
      ⟨_, .Assignment ⟨_, .Identifier "b"⟩ _ ⟨_, .Identifier "c"⟩⟩⟩ => true
  | _ => false

/-- Is `a - b - c` parsed as `Binary(Binary(a, -, b), -, c)`
(claim C6)? -/
def c6SubShape (p : POut (Spanned Expression) × PState) : Bool :=
  match p.1 with
  | .ok ⟨_, .Binary ⟨_, .Binary ⟨_, .Identifier "a"⟩ ⟨_, .Minus⟩
      ⟨_, .Identifier "b"⟩⟩ ⟨_, .Minus⟩ ⟨_, .Identifier "c"⟩⟩ => true
  | _ => false

/-- Is `a < b < c` parsed as `BoolBinary(BoolBinary(a, <, b), <, c)`
(claim C6, comparison operators)? -/
def c6CmpShape (p : POut (Spanned Expression) × PState) : Bool :=
  match p.1 with
  | .ok ⟨_, .BoolBinary ⟨_, .BoolBinary ⟨_, .Identifier "a"⟩ ⟨_, .Smaller⟩
      ⟨_, .Identifier "b"⟩⟩ ⟨_, .Smaller⟩ ⟨_, .Identifier "c"⟩⟩ => true
  | _ => false

/-- The `(module, callee, argument)` triple of a parsed one-argument call
whose callee and argument are plain identifiers (claim C7). -/
def c7Parts (p : POut (Spanned Expression) × PState) :
    Option (String × String × String) :=
  match p.1 with
  | .ok ⟨_, .Call m ⟨_, .Identifier c⟩ [⟨_, .Identifier a⟩]⟩ =>
    some (m, c, a)
  | _ => none

/-- The block-interior source driving the claim C5 witness: a statement
that fails (`@`) followed by a well-formed `let`. -/
def c5code : List Char := "@; let x = 1; \x7d".data

/-- The parser state at the start of the block loop for `c5code`. -/
def c5state : PState := ⟨⟨"m", c5code⟩, lexSource c5code, 0⟩

/-- The error `statement()` reports on `c5code` (the `@` in prefix
position). -/
def c5err : Spanned ParseError :=
  ⟨⟨0, 1⟩, .PrefixError "invalid token in prefix expression '@'"⟩

/-- The parser state after the failed statement on `c5code`: the `@` is
consumed and the prefix error has been counted. -/
def c5state' : PState := ⟨⟨"m", c5code⟩, (lexSource c5code).drop 1, 1⟩

/-- `Source::slice` (`&self.code[span.start..=span.end]`), for sources of
single-byte characters (every theorem that uses it restricts the source
to ASCII, where byte offsets and character offsets agree). -/
def sliceSpan (src : List Char) (sp : Span) : List Char :=
  (src.drop sp.start).take (sp.«end» + 1 - sp.start)

/-- The concatenation, in iterator order, of the source slices of every
token's span in a lexer run. -/
def spanConcat (src : List Char) (items : List Scanned) : List Char :=
  items.foldr
    (fun it acc =>
      match it with
      | .ok sp => sliceSpan src sp.span ++ acc
      | .error _ => acc) []

/-- Does a lexer run produce no error? -/
def lexNoError (items : List Scanned) : Bool :=
  items.all fun it =>
    match it with
    | .ok _ => true
    | .error _ => false

/-- The input text minus whitespace and line comments (claim C2's
right-hand side): drop every whitespace character and every `//`-to-end
of-line comment, keep everything else.  When the flag is set, characters
up to and including the next newline are being discarded as part of a
`//` line comment. -/
def stripGo : Bool → List Char → List Char
  | _, [] => []
  | true, c :: rest =>
    if c = newline then stripGo false rest else stripGo true rest
  | false, c :: rest =>
    if rustIsWhitespace c then stripGo false rest
    else if c = '/' ∧ rest.head? = some '/' then stripGo true rest
    else c :: stripGo false rest

/-- See `stripGo`: strip from outside a comment. -/
def stripWsComments (l : List Char) : List Char := stripGo false l

/-- A string literal: its token span covers the contents but not the
quotes. -/
def c2InputString : List Char := [doubleQuote, 'a', doubleQuote]

/-- A single-character first token at offset 0: its span leaks into the
next character. -/
def c2InputPlus : List Char := "+x".data

/-- An `=` whose span covers the following whitespace byte, and a final
`=` that produces no token. -/
def c2InputEq : List Char := ['=', ' ', '=']

/-- The source driving the claim C8 witness. -/
def c8code : List Char := "**i32".data

/-- The parser state at the start of `consume_type` for `c8code`. -/
def c8state : PState := ⟨⟨"m", c8code⟩, lexSource c8code, 0⟩

/-- The dispatch of `scan_token` on the character under the cursor after
whitespace skipping (the body of the `match` in `scan_token`, as a
function of the scrutinee). -/
def scanDispatch (fuel : Nat) (src : List Char) (i₀ : Nat) (ch : Char) :
    Option (Scanned × Nat) :=
  if ch = '=' then
    match src.get? (i₀ + 1) with
    | none => none
    | some c2 =>
      some (.ok (mkSpanned src (i₀ + 2) (bytePos src i₀)
        (if c2 = '=' then .EqualsEquals
         else if c2 = '>' then .Arrow
         else .Equals)), i₀ + 2)
  else if ch = '/' then
    if src.get? (i₀ + 1) = some '/' then
      scan_token fuel src (read_while (fun c => c ≠ newline) src i₀).2
    else some (consume_once src i₀ (bytePos src i₀) .Slash)
  else if ch = '.' then
    if (read_while (fun c => c = '.') src i₀).1.length = 1 then
      some (.ok (mkSpanned src (read_while (fun c => c = '.') src i₀).2
        (bytePos src i₀) .Dot), (read_while (fun c => c = '.') src i₀).2)
    else if (read_while (fun c => c = '.') src i₀).1.length = 3 then
      some (.ok (mkSpanned src (read_while (fun c => c = '.') src i₀).2
        (bytePos src i₀) .Varargs), (read_while (fun c => c = '.') src i₀).2)
    else
      some (.error (Spanned.new (bytePos src i₀)
        (bytePos src (read_while (fun c => c = '.') src i₀).2 - 1)
        (.LexingError (some "too many dots"))),
        (read_while (fun c => c = '.') src i₀).2)
  else if ch = singleQuote then some (scan_char src i₀ (bytePos src i₀))
  else if ch = '!' then
    some (consume_with src i₀ (bytePos src i₀) '=' .Bang .BangEquals)
  else if ch = '+' then
    some (consume_double src i₀ (bytePos src i₀) '+' .Plus .PlusPlus)
  else if ch = '-' then
    some (consume_double src i₀ (bytePos src i₀) '-' .Minus .MinusMinus)
  else if ch = '<' then
    some (consume_with src i₀ (bytePos src i₀) '=' .Smaller .SmallerEquals)
  else if ch = '>' then
    some (consume_with src i₀ (bytePos src i₀) '=' .Greater .GreaterEquals)
  else if ch = '&' then
    some (consume_double src i₀ (bytePos src i₀) '&' .Ampersand .AmpersandAmpersand)
  else if ch = '|' then
    some (consume_double src i₀ (bytePos src i₀) '|' .Pipe .PipePipe)
  else if ch = '*' then some (consume_once src i₀ (bytePos src i₀) .Star)
  else if ch = '%' then some (consume_once src i₀ (bytePos src i₀) .Percent)
  else if ch = ':' then some (consume_once src i₀ (bytePos src i₀) .Colon)
  else if ch = ';' then some (consume_once src i₀ (bytePos src i₀) .Semicolon)
  else if ch = '(' then some (consume_once src i₀ (bytePos src i₀) .LeftParen)
  else if ch = ')' then some (consume_once src i₀ (bytePos src i₀) .RightParen)
  else if ch = Char.ofNat 123 then
    some (consume_once src i₀ (bytePos src i₀) .LeftBrace)
  else if ch = Char.ofNat 125 then
    some (consume_once src i₀ (bytePos src i₀) .RightBrace)
  else if ch = '[' then some (consume_once src i₀ (bytePos src i₀) .LeftBracket)
  else if ch = ']' then some (consume_once src i₀ (bytePos src i₀) .RightBracket)
  else if ch = '?' then some (consume_once src i₀ (bytePos src i₀) .Question)
  else if ch = '@' then some (consume_once src i₀ (bytePos src i₀) .At)
  else if ch = '^' then some (consume_once src i₀ (bytePos src i₀) .Caret)
  else if ch = ',' then some (consume_once src i₀ (bytePos src i₀) .Comma)
  else if ch = doubleQuote then some (scan_string src i₀)
  else if rustIsAlphabetic ch then some (scan_identifier src i₀)
  else if ch.isDigit then some (scan_number src i₀)
  else some (.error ⟨⟨bytePos src i₀, bytePos src i₀⟩, .LexingError none⟩, i₀ + 1)

/-- The per-token property driving the span-concatenation claim: if the
scan yields no token, everything from the cursor on is whitespace or
comments; if it yields an `Ok` token, the cursor strictly advances and
the stripped remainder splits as the token's source slice followed by
the stripped rest. -/
abbrev StepGoal (src : List Char) (g i : Nat) : Prop :=
  (scan_token g src i = none → stripGo false (src.drop i) = []) ∧
  ∀ sp i', scan_token g src i = some (.ok sp, i') →
    i < i' ∧ i' ≤ src.length ∧
    stripGo false (src.drop i) = sliceSpan src sp.span ++ stripGo false (src.drop i')

/-! ## Helper lemmas -/

/-- Unfolding of the parser monad's `bind` at a state. -/
theorem pmBind_apply (x : PM α) (g : α → PM β) (s : PState) :
    (x >>= g) s =
      match x s with
      | (.ok a, s') => g a s'
      | (.err e, s') => (.err e, s')
      | (.panic m, s') => (.panic m, s')
      | (.nofuel, s') => (.nofuel, s') := rfl

/-- Unfolding of the parser monad's `pure` at a state. -/
theorem pmPure_apply (a : α) (s : PState) :
    (pure a : PM α) s = (.ok a, s) := rfl

set_option maxHeartbeats 4000000 in
/-- Every `Pointer` or `Ref` the type parser returns has depth 1 or 2:
whenever `consume_type` succeeds with a pointer or reference type, its
recorded depth is in `{1, 2}` (the depth starts at 1 for the first
`*`/`&` and `Pointer::new`/`Ref::new` refuse anything above 2). -/
theorem c8_main (f : Nat) (s s' : PState) (sp : Spanned Ty)
    (h : consume_type f s = (.ok sp, s')) :
    (∀ p : Pointer, sp.node = .Complex (.Pointer p) → p.size = 1 ∨ p.size = 2) ∧
    (∀ r : Ref, sp.node = .Complex (.Ref r) → r.size = 1 ∨ r.size = 2) := by
  cases f with
  | zero => simp [consume_type] at h
  | succ f =>
    rcases hT : s.tokens with _ | ⟨t, rest⟩
    · simp [consume_type, pmBind_apply, pmPeek, hT, eofErr] at h
    · cases t with
      | error e => simp [consume_type, pmBind_apply, pmPeek, pmErr, hT] at h
      | ok peek =>
        rcases peek with ⟨pspan, pnode⟩
        cases pnode
        case TypeIdentifier ty =>
          simp [consume_type, pmBind_apply, pmPure_apply, pmPeek, hT,
            pmAdvance, advanceRaw] at h
          obtain ⟨h1, h2⟩ := h
          subst h1
          constructor <;> (intro x hx; simp at hx)
        case Identifier name =>
          simp only [consume_type, pmBind_apply, pmPure_apply, pmPeek, hT,
            List.head?] at h
          rcases hPE : parse_expression f Precedence.Assignment true s with ⟨o₁, s₁⟩
          simp only [hPE] at h
          cases o₁ with
          | ok e =>
            rcases hUI : user_identifier e s₁ with ⟨o₂, s₂⟩
            simp only [hUI] at h
            cases o₂ with
            | ok id =>
              simp [pmPure_apply] at h
              obtain ⟨h1, h2⟩ := h
              subst h1
              constructor <;> (intro x hx; simp at hx)
            | err e' => simp at h
            | panic m => simp at h
            | nofuel => simp at h
          | err e' => simp at h
          | panic m => simp at h
          | nofuel => simp at h
        case Star =>
          simp only [consume_type, pmBind_apply, pmPure_apply, pmPeek, hT,
            List.head?, pmAdvance, advanceRaw] at h
          rcases hSC : starCount f .Star { s with tokens := rest } with ⟨o₁, s₂⟩
          simp only [hSC] at h
          cases o₁ with
          | ok extra =>
            rcases hCT : consume_type f s₂ with ⟨o₂, s₃⟩
            simp only [hCT] at h
            cases o₂ with
            | ok ty =>
              cases hnode : ty.node with
              | Simple s0 =>
                simp only [hnode] at h
                by_cases hgt : 1 + extra > 2
                · simp [Pointer.new, hgt, pmPanic] at h
                · simp [Pointer.new, hgt, pmPanic, pmPure_apply, Spanned.new] at h
                  obtain ⟨h1, h2⟩ := h
                  subst h1
                  constructor
                  · intro p hp
                    simp at hp
                    first
                    | (rcases hp with ⟨hp1, hp2⟩; omega)
                    | (rcases hp with ⟨hp1, hp2⟩; simp; omega)
                  · intro r hr
                    simp at hr
              | Complex c =>
                simp only [hnode, pmErr] at h
                exact absurd h (by simp)
              | Nullable n =>
                simp only [hnode, pmErr] at h
                exact absurd h (by simp)
            | err e' => simp at h
            | panic m => simp at h
            | nofuel => simp at h
          | err e' => simp at h
          | panic m => simp at h
          | nofuel => simp at h
        case Ampersand =>
          simp only [consume_type, pmBind_apply, pmPure_apply, pmPeek, hT,
            List.head?, pmAdvance, advanceRaw] at h
          rcases hSC : starCount f .Ampersand { s with tokens := rest } with ⟨o₁, s₂⟩
          simp only [hSC] at h
          cases o₁ with
          | ok extra =>
            rcases hCT : consume_type f s₂ with ⟨o₂, s₃⟩
            simp only [hCT] at h
            cases o₂ with
            | ok ty =>
              cases hnode : ty.node with
              | Simple s0 =>
                simp only [hnode] at h
                by_cases hgt : 1 + extra > 2
                · simp [Ref.new, hgt, pmPanic] at h
                · simp [Ref.new, hgt, pmPanic, pmPure_apply, Spanned.new] at h
                  obtain ⟨h1, h2⟩ := h
                  subst h1
                  constructor
                  · intro p hp
                    simp at hp
                  · intro r hr
                    simp at hr
                    first
                    | (rcases hr with ⟨hr1, hr2⟩; omega)
                    | (rcases hr with ⟨hr1, hr2⟩; simp; omega)
              | Complex c =>
                simp only [hnode, pmErr] at h
                exact absurd h (by simp)
              | Nullable n =>
                simp only [hnode, pmErr] at h
                exact absurd h (by simp)
            | err e' => simp at h
            | panic m => simp at h
            | nofuel => simp at h
          | err e' => simp at h
          | panic m => simp at h
          | nofuel => simp at h
        case LeftBracket =>
          simp only [consume_type, pmBind_apply, pmPure_apply, pmPeek, hT,
            List.head?, pmAdvance, advanceRaw] at h
          rcases hAL : arrayLoop f none { s with tokens := rest } with ⟨o₁, s₂⟩
          simp only [hAL] at h
          cases o₁ with
          | ok size =>
            rcases hCT : consume_type f s₂ with ⟨o₂, s₃⟩
            simp only [hCT] at h
            cases o₂ with
            | ok ty =>
              cases hnode : ty.node with
              | Simple s0 =>
                simp [hnode, pmPure_apply, Spanned.new, Array.new] at h
                obtain ⟨h1, h2⟩ := h
                subst h1
                constructor <;> (intro x hx; simp at hx)
              | Complex c =>
                simp only [hnode, pmErr] at h
                exact absurd h (by simp)
              | Nullable n =>
                simp only [hnode, pmErr] at h
                exact absurd h (by simp)
            | err e' => simp at h
            | panic m => simp at h
            | nofuel => simp at h
          | err e' => simp at h
          | panic m => simp at h
          | nofuel => simp at h
        case Question =>
          simp only [consume_type, pmBind_apply, pmPure_apply, pmPeek, hT,
            List.head?, pmAdvance, advanceRaw] at h
          rcases hCT : consume_type f { s with tokens := rest } with ⟨o₂, s₃⟩
          simp only [hCT] at h
          cases o₂ with
          | ok inner =>
            cases hnode : inner.node with
            | Simple s0 =>
              simp [hnode, pmPure_apply, Spanned.new, Nullable.new] at h
              obtain ⟨h1, h2⟩ := h
              subst h1
              constructor <;> (intro x hx; simp at hx)
            | Complex c =>
              simp only [hnode, pmErr] at h
              exact absurd h (by simp)
            | Nullable n =>
              simp only [hnode, pmErr] at h
              exact absurd h (by simp)
          | err e' => simp at h
          | panic m => simp at h
          | nofuel => simp at h
        all_goals simp [consume_type, pmBind_apply, pmPeek, hT, pmConsumeError] at h

/-! ## Lemmas for claim C2 -/
theorem utf8Size_of_ascii {c : Char} (h : c.toNat < 128) : c.utf8Size = 1 := by
  have hv : c.val.toBitVec.toNat < 128 := h
  rw [Char.utf8Size]
  rw [if_pos]
  rw [UInt32.le_def, BitVec.le_def]
  show c.val.toBitVec.toNat ≤ 127
  omega

theorem sum_map_utf8Size_ascii {l : List Char} (h : ∀ c ∈ l, c.toNat < 128) :
    (l.map Char.utf8Size).sum = l.length := by
  induction l with
  | nil => rfl
  | cons c t ih =>
    simp [utf8Size_of_ascii (h c (by simp)), ih (fun x hx => h x (by simp [hx]))]
    omega

theorem bytePos_ascii {src : List Char} (h : ∀ c ∈ src, c.toNat < 128)
    (j : Nat) : bytePos src j = min j src.length := by
  rw [bytePos, sum_map_utf8Size_ascii (fun c hc => h c ((List.take_subset _ _) hc))]
  simp [List.length_take]

theorem prevLen_ascii {src : List Char} (h : ∀ c ∈ src, c.toNat < 128)
    {i : Nat} (h2 : 2 ≤ i) (hle : i ≤ src.length) : prevLen src i = 1 := by
  rw [prevLen, if_pos h2]
  have hlt : i - 1 < src.length := by omega
  rw [List.get?_eq_getElem?, List.getElem?_eq_getElem hlt]
  exact utf8Size_of_ascii (h _ (List.getElem_mem hlt))

theorem mkSpanned_ascii {src : List Char} (h : ∀ c ∈ src, c.toNat < 128)
    {i : Nat} (h2 : 2 ≤ i) (hle : i ≤ src.length) (start : Nat) (t : α) :
    mkSpanned src i start t = ⟨⟨start, i - 1⟩, t⟩ := by
  rw [mkSpanned, Spanned.new, prevLen_ascii h h2 hle, bytePos_ascii h]
  have : min i src.length = i := by omega
  rw [this]

theorem read_while_eq (p : Char → Bool) (src : List Char) (i : Nat) :
    read_while p src i =
      ((src.drop i).takeWhile p, i + ((src.drop i).takeWhile p).length) := rfl

theorem read_while_le_len (p : Char → Bool) {src : List Char} {i : Nat}
    (h : i ≤ src.length) : (read_while p src i).2 ≤ src.length := by
  rw [read_while_eq]
  have := (List.takeWhile_sublist (l := src.drop i) p).length_le
  simp [List.length_drop] at this ⊢
  omega

theorem drop_read_while (p : Char → Bool) (src : List Char) (i : Nat) :
    src.drop (read_while p src i).2 = (src.drop i).dropWhile p := by
  rw [read_while_eq, ← List.drop_drop]
  have h := List.takeWhile_append_dropWhile (p := p) (l := src.drop i)
  nth_rewrite 2 [← h]
  exact List.drop_left _ _

theorem takeWhile_eq_take {α : Type} (p : α → Bool) (l : List α) :
    l.takeWhile p = l.take (l.takeWhile p).length := by
  have h := List.takeWhile_append_dropWhile (p := p) (l := l)
  nth_rewrite 3 [← h]
  exact (List.take_left _ _).symm

theorem stripGo_ws {c : Char} (h : rustIsWhitespace c = true) (l : List Char) :
    stripGo false (c :: l) = stripGo false l := by
  simp [stripGo, h]

theorem stripGo_dropWhile_ws (l : List Char) :
    stripGo false (l.dropWhile rustIsWhitespace) = stripGo false l := by
  induction l with
  | nil => rfl
  | cons c t ih =>
    by_cases h : rustIsWhitespace c = true
    · rw [List.dropWhile_cons, if_pos h, ih, stripGo_ws h]
    · rw [List.dropWhile_cons, if_neg h]

theorem stripGo_keep {c : Char} (h1 : rustIsWhitespace c = false)
    (h2 : c ≠ '/') (l : List Char) :
    stripGo false (c :: l) = c :: stripGo false l := by
  rw [stripGo, if_neg (by simp [h1]), if_neg (by simp [h2])]

theorem stripGo_slash_nocomment {l : List Char} (h : l.head? ≠ some '/') :
    stripGo false ('/' :: l) = '/' :: stripGo false l := by
  rw [stripGo, if_neg (by decide), if_neg (by simp [h])]

theorem stripGo_comment_start {l : List Char} (h : l.head? = some '/') :
    stripGo false ('/' :: l) = stripGo true l := by
  rw [stripGo, if_neg (by decide), if_pos (by simp [h])]

theorem stripGo_comment_run (l : List Char) :
    stripGo true l = stripGo false (l.dropWhile (fun x => x ≠ newline)) := by
  induction l with
  | nil => rfl
  | cons c t ih =>
    by_cases h : c = newline
    · subst h
      rw [List.dropWhile_cons, if_neg (by simp)]
      rw [stripGo, if_pos rfl]
      rw [stripGo_ws (by decide)]
    · rw [List.dropWhile_cons, if_pos (by simp [h]), ← ih]
      rw [stripGo, if_neg h]

theorem stripGo_transparent {body : List Char}
    (h : ∀ c ∈ body, rustIsWhitespace c = false ∧ c ≠ '/') (l : List Char) :
    stripGo false (body ++ l) = body ++ stripGo false l := by
  induction body with
  | nil => rfl
  | cons c t ih =>
    have hc := h c (by simp)
    rw [List.cons_append, stripGo_keep hc.1 hc.2,
      ih (fun x hx => h x (by simp [hx])), List.cons_append]

theorem uint32_le_iff {a b : UInt32} :
    (a ≤ b) ↔ a.toBitVec.toNat ≤ b.toBitVec.toNat := by
  rw [UInt32.le_def, BitVec.le_def]

theorem toNat_bounds_of_alnum {c : Char} (h : c.isAlphanum = true) :
    (48 ≤ c.toNat ∧ c.toNat ≤ 57) ∨ (65 ≤ c.toNat ∧ c.toNat ≤ 90) ∨
    (97 ≤ c.toNat ∧ c.toNat ≤ 122) := by
  simp [Char.isAlphanum, Char.isAlpha, Char.isDigit, Char.isUpper,
    Char.isLower] at h
  rcases h with (⟨h1, h2⟩ | ⟨h1, h2⟩) | ⟨h1, h2⟩
  · exact .inr (.inl ⟨uint32_le_iff.mp h1, uint32_le_iff.mp h2⟩)
  · exact .inr (.inr ⟨uint32_le_iff.mp h1, uint32_le_iff.mp h2⟩)
  · exact .inl ⟨uint32_le_iff.mp h1, uint32_le_iff.mp h2⟩

theorem ws_false_of_toNat {c : Char} (h33 : 33 ≤ c.toNat)
    (hA : c.toNat < 128) : rustIsWhitespace c = false := by
  simp [rustIsWhitespace]
  omega

theorem ident_char_ok {c : Char} (hA : c.toNat < 128)
    (h : (rustIsAlphanumeric c || c = '_') = true) :
    rustIsWhitespace c = false ∧ c ≠ '/' := by
  have hslash : ('/' : Char).toNat = 47 := rfl
  rcases Bool.or_eq_true_iff.mp h with halnum | heq
  · have hb := toNat_bounds_of_alnum halnum
    constructor
    · exact ws_false_of_toNat (by omega) hA
    · intro hc
      subst hc
      simp [hslash] at hb <;> omega
  · have : c = '_' := by simpa using heq
    subst this
    exact ⟨by decide, by decide⟩

theorem digit_char_ok {c : Char} (hA : c.toNat < 128)
    (h : c.isDigit = true) : rustIsWhitespace c = false ∧ c ≠ '/' := by
  apply ident_char_ok hA
  simp [rustIsAlphanumeric, Char.isAlphanum, h]

theorem head_dropWhile_false {α : Type} {p : α → Bool} :
    ∀ {l : List α} {c : α} {t : List α},
      l.dropWhile p = c :: t → p c = false := by
  intro l
  induction l with
  | nil => intro c t h; simp [List.dropWhile] at h
  | cons a l' ih =>
    intro c t h
    rw [List.dropWhile_cons] at h
    by_cases hp : p a = true
    · rw [if_pos hp] at h
      exact ih h
    · rw [if_neg hp] at h
      cases h
      simpa using hp
theorem get?_lt {α : Type} {l : List α} {j : Nat} {c : α}
    (h : l.get? j = some c) : j < l.length := by
  obtain ⟨hj, -⟩ := List.get?_eq_some.mp h
  exact hj

theorem drop_succ_of_get? {α : Type} {l : List α} {j : Nat} {c : α}
    (h : l.get? j = some c) : l.drop j = c :: l.drop (j + 1) := by
  obtain ⟨hj, hc⟩ := List.get?_eq_some.mp h
  rw [List.drop_eq_get_cons hj, hc]

theorem takeWhile_pos {α : Type} {p : α → Bool} {l : List α} {c : α}
    (h : l.head? = some c) (hp : p c = true) :
    1 ≤ (l.takeWhile p).length := by
  cases l with
  | nil => cases h
  | cons a t =>
    have ha : a = c := by simpa using h
    subst ha
    rw [List.takeWhile_cons, if_pos hp]
    simp

theorem mem_takeWhile_drop {p : Char → Bool} {src : List Char} {I : Nat}
    {c : Char} (h : c ∈ (src.drop I).takeWhile p) : c ∈ src :=
  (List.drop_subset I src) ((List.takeWhile_sublist p).subset h)

theorem readwhile_decomp (p : Char → Bool) (src : List Char) (I : Nat) :
    src.drop I = (src.drop I).takeWhile p ++
      src.drop (I + ((src.drop I).takeWhile p).length) := by
  have h2 : src.drop (I + ((src.drop I).takeWhile p).length) =
      (src.drop I).dropWhile p := drop_read_while p src I
  rw [h2, List.takeWhile_append_dropWhile]

theorem scan_token_none {src : List Char} {i I : Nat} (g : Nat)
    (hI : I = skip_whitespace src i) (hch : src.get? I = none) :
    scan_token (g + 1) src i = none := by
  subst hI
  simp only [scan_token]
  rw [hch]

theorem scan_token_dispatch {src : List Char} {i I : Nat} {ch : Char} (g : Nat)
    (hI : I = skip_whitespace src i) (hch : src.get? I = some ch) :
    scan_token (g + 1) src i = scanDispatch g src I ch := by
  subst hI
  simp only [scan_token]
  rw [hch]
  rfl

theorem step_of_error {src : List Char} {g i j : Nat} {e : Spanned ParseError}
    (hsc : scan_token g src i = some (.error e, j)) : StepGoal src g i := by
  constructor
  · intro h
    rw [hsc] at h
    cases h
  · intro sp i' h
    rw [hsc] at h
    simp only [Option.some.injEq, Prod.mk.injEq] at h
    exact Except.noConfusion h.1

theorem step_of_ok {src body : List Char} {g i I d : Nat} {t : TokenType}
    (hsc : scan_token g src i = some (.ok ⟨⟨I, I + d - 1⟩, t⟩, I + d))
    (hstrip0 : stripGo false (src.drop i) = stripGo false (src.drop I))
    (hdecomp : src.drop I = body ++ src.drop (I + d))
    (hlen : body.length = d)
    (htrans : stripGo false (body ++ src.drop (I + d)) =
      body ++ stripGo false (src.drop (I + d)))
    (hd : 1 ≤ d) (hiI : i ≤ I) (hIdlen : I + d ≤ src.length) :
    StepGoal src g i := by
  constructor
  · intro h
    rw [hsc] at h
    cases h
  · intro sp i' h
    rw [hsc] at h
    simp only [Option.some.injEq, Prod.mk.injEq, Except.ok.injEq] at h
    obtain ⟨hsp, hi'⟩ := h
    subst hsp
    subst hi'
    refine ⟨by omega, hIdlen, ?_⟩
    show stripGo false (src.drop i) =
      sliceSpan src ⟨I, I + d - 1⟩ ++ stripGo false (src.drop (I + d))
    have hslice : sliceSpan src ⟨I, I + d - 1⟩ = body := by
      have h1 : sliceSpan src ⟨I, I + d - 1⟩ = (src.drop I).take d := by
        show (src.drop I).take (I + d - 1 + 1 - I) = (src.drop I).take d
        rw [show I + d - 1 + 1 - I = d from by omega]
      rw [h1, hdecomp, ← hlen, List.take_left]
    rw [hslice, hstrip0, hdecomp, htrans]

theorem step_mk {src body : List Char} {g i I d : Nat} {t : TokenType}
    (hascii : ∀ c ∈ src, c.toNat < 128)
    (hsc : scan_token g src i =
      some (.ok (mkSpanned src (I + d) (bytePos src I) t), I + d))
    (hstrip0 : stripGo false (src.drop i) = stripGo false (src.drop I))
    (hdecomp : src.drop I = body ++ src.drop (I + d))
    (hlen : body.length = d)
    (htrans : stripGo false (body ++ src.drop (I + d)) =
      body ++ stripGo false (src.drop (I + d)))
    (hd : 1 ≤ d) (hI1 : 1 ≤ I) (hiI : i ≤ I) (hIdlen : I + d ≤ src.length) :
    StepGoal src g i := by
  have hb : bytePos src I = I := by
    rw [bytePos_ascii hascii]
    omega
  have hspan : mkSpanned src (I + d) (bytePos src I) t =
      (⟨⟨I, I + d - 1⟩, t⟩ : Spanned TokenType) := by
    rw [mkSpanned_ascii hascii (by omega) hIdlen, hb]
  rw [hspan] at hsc
  exact step_of_ok hsc hstrip0 hdecomp hlen htrans hd hiI hIdlen

theorem scan_identifier_eq {src : List Char} {I : Nat} :
    scan_identifier src I =
      (let tw := (src.drop I).takeWhile (fun c => rustIsAlphanumeric c || c = '_')
       match check_keyword (String.mk tw) with
       | some tok =>
         (.ok (mkSpanned src (I + tw.length) (bytePos src I) tok), I + tw.length)
       | none =>
         if strIsAscii tw then
           (.ok (mkSpanned src (I + tw.length) (bytePos src I)
             (.Identifier (String.mk tw))), I + tw.length)
         else
           (.error (mkSpanned src (I + tw.length) (bytePos src I)
             (.LexingError (some "non-ascii identifiers are not allowed"))),
             I + tw.length)) := rfl

theorem scan_number_eq {src : List Char} {I : Nat} :
    scan_number src I =
      (let tw := (src.drop I).takeWhile Char.isDigit
       let dec : Scanned × Nat :=
         (.ok (mkSpanned src (I + tw.length) (bytePos src I)
           (.DecLiteral (String.mk tw))), I + tw.length)
       match src.get? (I + tw.length) with
       | some c =>
         if c = '.' then
           match src.get? (I + tw.length + 1) with
           | some d0 =>
             if d0.isDigit then
               let tw2 := (src.drop (I + tw.length + 1)).takeWhile Char.isDigit
               (.ok (mkSpanned src (I + tw.length + 1 + tw2.length)
                 (bytePos src I)
                 (.FloatLiteral (String.mk (tw ++ '.' :: tw2)))),
                 I + tw.length + 1 + tw2.length)
             else dec
           | none => dec
         else dec
       | none => dec) := rfl

theorem float_decomp {src t1 t2 : List Char} {I a b : Nat}
    (hA : src.drop I = t1 ++ src.drop (I + a))
    (hB : src.drop (I + a) = '.' :: src.drop (I + a + 1))
    (hC : src.drop (I + a + 1) = t2 ++ src.drop (I + a + 1 + b)) :
    src.drop I = (t1 ++ '.' :: t2) ++ src.drop (I + (a + 1 + b)) := by
  rw [show I + (a + 1 + b) = I + a + 1 + b from by omega, hA, hB, hC]
  simp [List.append_assoc]

theorem float_len {t1 t2 : List Char} :
    (t1 ++ '.' :: t2).length = t1.length + 1 + t2.length := by
  simp
  omega

theorem float_body {src : List Char} (hascii : ∀ c ∈ src, c.toNat < 128)
    {I J : Nat} :
    ∀ c ∈ (src.drop I).takeWhile Char.isDigit ++
      '.' :: (src.drop J).takeWhile Char.isDigit,
      rustIsWhitespace c = false ∧ c ≠ '/' := by
  intro c hc
  rcases List.mem_append.mp hc with h | h
  · exact digit_char_ok (hascii c (mem_takeWhile_drop h))
      (List.mem_takeWhile_imp h)
  · rcases List.mem_cons.mp h with h | h
    · subst h
      exact ⟨by decide, by decide⟩
    · exact digit_char_ok (hascii c (mem_takeWhile_drop h))
        (List.mem_takeWhile_imp h)

theorem lexNoError_cons_ok {sp : Spanned TokenType} {rest : List Scanned} :
    lexNoError (.ok sp :: rest) = lexNoError rest := by
  simp [lexNoError]

theorem lexNoError_cons_err {e : Spanned ParseError} {rest : List Scanned} :
    lexNoError (.error e :: rest) = false := by
  simp [lexNoError]

theorem spanConcat_cons_ok {src : List Char} {sp : Spanned TokenType}
    {rest : List Scanned} :
    spanConcat src (.ok sp :: rest) = sliceSpan src sp.span ++ spanConcat src rest := rfl

theorem consume_with_ne {src : List Char} {i start : Nat} {next : Char}
    {f s : TokenType} (h : ∀ c', src.get? (i + 1) = some c' → c' ≠ next) :
    consume_with src i start next f s =
      (.ok (mkSpanned src (i + 1) start f), i + 1) := by
  cases h2 : src.get? (i + 1) with
  | none => simp only [consume_with, h2]
  | some c2 => simp only [consume_with, h2, if_neg (h c2 h2)]

theorem consume_double_hit {src : List Char} {i start : Nat} {ch : Char}
    {f s : TokenType} (h : src.get? (i + 1) = some ch) :
    consume_double src i start ch f s =
      (.ok (mkSpanned src (i + 2) start s), i + 2) := by
  simp only [consume_double, h]
  simp

theorem consume_double_miss {src : List Char} {i start : Nat} {ch : Char}
    {f s : TokenType} (h : ∀ c', src.get? (i + 1) = some c' → c' ≠ ch) :
    consume_double src i start ch f s =
      (.ok (mkSpanned src (i + 1) start f), i + 1) := by
  cases h2 : src.get? (i + 1) with
  | none => simp only [consume_double, h2]
  | some c2 => simp only [consume_double, h2, if_neg (h c2 h2)]

theorem step_once {src : List Char} {g i I : Nat} {ch : Char} {t : TokenType}
    (hascii : ∀ c ∈ src, c.toNat < 128)
    (hsc : scan_token g src i =
      some (.ok (mkSpanned src (I + 1) (bytePos src I) t), I + 1))
    (hstrip0 : stripGo false (src.drop i) = stripGo false (src.drop I))
    (hdropI : src.drop I = ch :: src.drop (I + 1))
    (hws : rustIsWhitespace ch = false) (hsl : ch ≠ '/')
    (hI1 : 1 ≤ I) (hiI : i ≤ I) (hIlt : I < src.length) : StepGoal src g i := by
  have hdec : src.drop I = [ch] ++ src.drop (I + 1) := by
    rw [hdropI]
    rfl
  have hbody : ∀ c ∈ [ch], rustIsWhitespace c = false ∧ c ≠ '/' := by
    intro c hc
    have hcc : c = ch := by simpa using hc
    subst hcc
    exact ⟨hws, hsl⟩
  exact step_mk hascii hsc hstrip0 hdec rfl (stripGo_transparent hbody _)
    (by omega) hI1 hiI (by omega)

theorem scan_step {src : List Char}
    (hascii : ∀ c ∈ src, c.toNat < 128)
    (hres : ∀ c ∈ src, c ≠ doubleQuote ∧ c ≠ singleQuote ∧ c ≠ '=') :
    ∀ k i g, src.length - i ≤ k → i ≤ src.length → src.length - i < g →
      (1 ≤ i ∨ ∀ c, src.head? = some c → rustIsWhitespace c = true) →
      StepGoal src g i := by
  intro k
  induction k with
  | zero =>
    intro i g hk hi hg hB
    obtain ⟨g', rfl⟩ : ∃ g', g = g' + 1 := ⟨g - 1, by omega⟩
    have hiI : i ≤ skip_whitespace src i := Nat.le_add_right i _
    cases hch : src.get? (skip_whitespace src i) with
    | some ch =>
      exfalso
      have := get?_lt hch
      omega
    | none =>
      constructor
      · intro _
        rw [List.drop_eq_nil_of_le (by omega : src.length ≤ i)]
        rfl
      · intro sp i' hx
        rw [scan_token_none g' rfl hch] at hx
        cases hx
  | succ k ih =>
    intro i g hk hi hg hB
    obtain ⟨g', rfl⟩ : ∃ g', g = g' + 1 := ⟨g - 1, by omega⟩
    have hiI : i ≤ skip_whitespace src i := Nat.le_add_right i _
    have hstrip0 : stripGo false (src.drop i) =
        stripGo false (src.drop (skip_whitespace src i)) := by
      have h1 : src.drop (skip_whitespace src i) =
          (src.drop i).dropWhile rustIsWhitespace :=
        drop_read_while rustIsWhitespace src i
      nth_rewrite 1 [← stripGo_dropWhile_ws (src.drop i)]
      rw [← h1]
    cases hch : src.get? (skip_whitespace src i) with
    | none =>
      constructor
      · intro _
        have hIlen : src.length ≤ skip_whitespace src i :=
          List.get?_eq_none.mp hch
        rw [hstrip0, List.drop_eq_nil_of_le hIlen]
        rfl
      · intro sp i' hx
        rw [scan_token_none g' rfl hch] at hx
        cases hx
    | some ch =>
      have hIlt : skip_whitespace src i < src.length := get?_lt hch
      have hdropI : src.drop (skip_whitespace src i) =
          ch :: src.drop (skip_whitespace src i + 1) := drop_succ_of_get? hch
      have hI1 : 1 ≤ skip_whitespace src i := by
        rcases hB with hB1 | hws
        · omega
        · rcases Nat.eq_zero_or_pos i with hi0 | hip
          · subst hi0
            cases hhead : src.head? with
            | none =>
              exfalso
              have hnil : src = [] := List.head?_eq_none_iff.mp hhead
              rw [hnil] at hIlt
              simp at hIlt
            | some c0 =>
              have hw := hws c0 hhead
              have hpos := takeWhile_pos hhead hw
              have hval : skip_whitespace src 0 =
                  0 + ((src.drop 0).takeWhile rustIsWhitespace).length := rfl
              rw [List.drop_zero] at hval
              omega
          · omega
      obtain ⟨hq1, hq2, hq3⟩ := hres ch (List.get?_mem hch)
      obtain ⟨I, hI⟩ : ∃ I, I = skip_whitespace src i := ⟨_, rfl⟩
      rw [← hI] at hch hiI hstrip0 hIlt hdropI hI1
      have hIlen : I ≤ src.length := by omega
      by_cases hbeq : ch = '='
      · exact absurd hbeq hq3
      by_cases b1 : ch = '/'
      · subst b1
        by_cases hsl : src.get? (I + 1) = some '/'
        · -- a line comment: skip it and use the induction hypothesis
          have hsc : scan_token (g' + 1) src i =
              scan_token g' src (read_while (fun c => c ≠ newline) src I).2 := by
            rw [scan_token_dispatch g' hI hch]
            show (if src.get? (I + 1) = some '/' then
                scan_token g' src (read_while (fun c => c ≠ newline) src I).2
              else some (consume_once src I (bytePos src I) .Slash)) = _
            rw [if_pos hsl]
          have hJgt : I < (read_while (fun c => c ≠ newline) src I).2 := by
            have h1 : (src.drop I).head? = some '/' := by
              rw [hdropI]
              rfl
            have h2 : 1 ≤ ((src.drop I).takeWhile (fun c => c ≠ newline)).length :=
              takeWhile_pos h1 (by decide)
            have h3 : (read_while (fun c => c ≠ newline) src I).2 =
                I + ((src.drop I).takeWhile (fun c => c ≠ newline)).length := rfl
            omega
          have hJle : (read_while (fun c => c ≠ newline) src I).2 ≤ src.length :=
            read_while_le_len _ hIlen
          have hh2 : (src.drop (I + 1)).head? = some '/' := by
            rw [List.head?_drop, ← List.get?_eq_getElem?]
            exact hsl
          have hJdrop : src.drop (read_while (fun c => c ≠ newline) src I).2 =
              (src.drop I).dropWhile (fun c => c ≠ newline) :=
            drop_read_while _ src I
          have hstripJ : stripGo false (src.drop i) =
              stripGo false (src.drop (read_while (fun c => c ≠ newline) src I).2) := by
            rw [hstrip0, hdropI, stripGo_comment_start hh2, stripGo_comment_run,
              hJdrop, hdropI, List.dropWhile_cons, if_pos (by decide)]
          have hIH := ih (read_while (fun c => c ≠ newline) src I).2 g'
            (by omega) hJle (by omega) (Or.inl (by omega))
          constructor
          · intro h
            rw [hsc] at h
            rw [hstripJ]
            exact hIH.1 h
          · intro sp i' h
            rw [hsc] at h
            obtain ⟨h1, h2, h3⟩ := hIH.2 sp i' h
            exact ⟨by omega, h2, by rw [hstripJ]; exact h3⟩
        · -- a lone slash
          have hsc : scan_token (g' + 1) src i =
              some (.ok (mkSpanned src (I + 1) (bytePos src I) .Slash), I + 1) := by
            rw [scan_token_dispatch g' hI hch]
            show (if src.get? (I + 1) = some '/' then
                scan_token g' src (read_while (fun c => c ≠ newline) src I).2
              else some (consume_once src I (bytePos src I) .Slash)) = _
            rw [if_neg hsl]
            rfl
          have hh2 : (src.drop (I + 1)).head? ≠ some '/' := by
            rw [List.head?_drop, ← List.get?_eq_getElem?]
            exact hsl
          have hdec : src.drop I = ['/'] ++ src.drop (I + 1) := by
            rw [hdropI]
            rfl
          have htr : stripGo false (['/'] ++ src.drop (I + 1)) =
              ['/'] ++ stripGo false (src.drop (I + 1)) := by
            rw [List.singleton_append, stripGo_slash_nocomment hh2]
            rfl
          exact step_mk hascii hsc hstrip0 hdec rfl htr (by omega) hI1 hiI (by omega)
      by_cases b2 : ch = '.'
      · subst b2
        have hd : scanDispatch g' src I '.' =
            (if ((src.drop I).takeWhile (fun c => c = '.')).length = 1 then
              some (.ok (mkSpanned src
                (I + ((src.drop I).takeWhile (fun c => c = '.')).length)
                (bytePos src I) .Dot),
                I + ((src.drop I).takeWhile (fun c => c = '.')).length)
            else if ((src.drop I).takeWhile (fun c => c = '.')).length = 3 then
              some (.ok (mkSpanned src
                (I + ((src.drop I).takeWhile (fun c => c = '.')).length)
                (bytePos src I) .Varargs),
                I + ((src.drop I).takeWhile (fun c => c = '.')).length)
            else
              some (.error (Spanned.new (bytePos src I)
                (bytePos src (I + ((src.drop I).takeWhile (fun c => c = '.')).length) - 1)
                (.LexingError (some "too many dots"))),
                I + ((src.drop I).takeWhile (fun c => c = '.')).length)) := rfl
        have hdl : 1 ≤ ((src.drop I).takeWhile (fun c => c = '.')).length :=
          takeWhile_pos (l := src.drop I) (by rw [hdropI]; rfl) (by decide)
        have hdlen : I + ((src.drop I).takeWhile (fun c => c = '.')).length ≤ src.length :=
          read_while_le_len _ hIlen
        have hdbody : ∀ c ∈ (src.drop I).takeWhile (fun c => c = '.'),
            rustIsWhitespace c = false ∧ c ≠ '/' := by
          intro c hc
          have hcd : c = '.' := by simpa using List.mem_takeWhile_imp hc
          subst hcd
          exact ⟨by decide, by decide⟩
        by_cases hd1 : ((src.drop I).takeWhile (fun c => c = '.')).length = 1
        · have hsc : scan_token (g' + 1) src i =
              some (.ok (mkSpanned src
                (I + ((src.drop I).takeWhile (fun c => c = '.')).length)
                (bytePos src I) .Dot),
                I + ((src.drop I).takeWhile (fun c => c = '.')).length) := by
            rw [scan_token_dispatch g' hI hch, hd, if_pos hd1]
          exact step_mk hascii hsc hstrip0 (readwhile_decomp _ src I) rfl
            (stripGo_transparent hdbody _) hdl hI1 hiI hdlen
        by_cases hd3 : ((src.drop I).takeWhile (fun c => c = '.')).length = 3
        · have hsc : scan_token (g' + 1) src i =
              some (.ok (mkSpanned src
                (I + ((src.drop I).takeWhile (fun c => c = '.')).length)
                (bytePos src I) .Varargs),
                I + ((src.drop I).takeWhile (fun c => c = '.')).length) := by
            rw [scan_token_dispatch g' hI hch, hd, if_neg hd1, if_pos hd3]
          exact step_mk hascii hsc hstrip0 (readwhile_decomp _ src I) rfl
            (stripGo_transparent hdbody _) hdl hI1 hiI hdlen
        · have hsc : scan_token (g' + 1) src i =
              some (.error (Spanned.new (bytePos src I)
                (bytePos src (I + ((src.drop I).takeWhile (fun c => c = '.')).length) - 1)
                (.LexingError (some "too many dots"))),
                I + ((src.drop I).takeWhile (fun c => c = '.')).length) := by
            rw [scan_token_dispatch g' hI hch, hd, if_neg hd1, if_neg hd3]
          exact step_of_error hsc
      by_cases b3 : ch = singleQuote
      · exact absurd b3 hq2
      by_cases b4 : ch = '!'
      · subst b4
        have hsc : scan_token (g' + 1) src i =
            some (.ok (mkSpanned src (I + 1) (bytePos src I) .Bang), I + 1) := by
          rw [scan_token_dispatch g' hI hch]
          show some (consume_with src I (bytePos src I) '=' .Bang .BangEquals) = _
          rw [consume_with_ne (fun c' h2 => (hres c' (List.get?_mem h2)).2.2)]
        exact step_once hascii hsc hstrip0 hdropI (by decide) (by decide) hI1 hiI hIlt
      by_cases b5 : ch = '+'
      · subst b5
        by_cases h2 : src.get? (I + 1) = some '+'
        · have hsc : scan_token (g' + 1) src i =
              some (.ok (mkSpanned src (I + 2) (bytePos src I) .PlusPlus), I + 2) := by
            rw [scan_token_dispatch g' hI hch]
            show some (consume_double src I (bytePos src I) '+' .Plus .PlusPlus) = _
            rw [consume_double_hit h2]
          have h3 : src.drop (I + 1) = '+' :: src.drop (I + 2) := drop_succ_of_get? h2
          have hdec : src.drop I = ['+', '+'] ++ src.drop (I + 2) := by
            rw [hdropI, h3]
            rfl
          have hI2 : I + 2 ≤ src.length := by
            have := get?_lt h2
            omega
          exact step_mk hascii hsc hstrip0 hdec rfl
            (stripGo_transparent (by decide) _) (by omega) hI1 hiI hI2
        · have hsc : scan_token (g' + 1) src i =
              some (.ok (mkSpanned src (I + 1) (bytePos src I) .Plus), I + 1) := by
            rw [scan_token_dispatch g' hI hch]
            show some (consume_double src I (bytePos src I) '+' .Plus .PlusPlus) = _
            rw [consume_double_miss (fun c' hc' heq => h2 (by rw [heq] at hc'; exact hc'))]
          exact step_once hascii hsc hstrip0 hdropI (by decide) (by decide) hI1 hiI hIlt
      by_cases b6 : ch = '-'
      · subst b6
        by_cases h2 : src.get? (I + 1) = some '-'
        · have hsc : scan_token (g' + 1) src i =
              some (.ok (mkSpanned src (I + 2) (bytePos src I) .MinusMinus), I + 2) := by
            rw [scan_token_dispatch g' hI hch]
            show some (consume_double src I (bytePos src I) '-' .Minus .MinusMinus) = _
            rw [consume_double_hit h2]
          have h3 : src.drop (I + 1) = '-' :: src.drop (I + 2) := drop_succ_of_get? h2
          have hdec : src.drop I = ['-', '-'] ++ src.drop (I + 2) := by
            rw [hdropI, h3]
            rfl
          have hI2 : I + 2 ≤ src.length := by
            have := get?_lt h2
            omega
          exact step_mk hascii hsc hstrip0 hdec rfl
            (stripGo_transparent (by decide) _) (by omega) hI1 hiI hI2
        · have hsc : scan_token (g' + 1) src i =
              some (.ok (mkSpanned src (I + 1) (bytePos src I) .Minus), I + 1) := by
            rw [scan_token_dispatch g' hI hch]
            show some (consume_double src I (bytePos src I) '-' .Minus .MinusMinus) = _
            rw [consume_double_miss (fun c' hc' heq => h2 (by rw [heq] at hc'; exact hc'))]
          exact step_once hascii hsc hstrip0 hdropI (by decide) (by decide) hI1 hiI hIlt
      by_cases b7 : ch = '<'
      · subst b7
        have hsc : scan_token (g' + 1) src i =
            some (.ok (mkSpanned src (I + 1) (bytePos src I) .Smaller), I + 1) := by
          rw [scan_token_dispatch g' hI hch]
          show some (consume_with src I (bytePos src I) '=' .Smaller .SmallerEquals) = _
          rw [consume_with_ne (fun c' h2 => (hres c' (List.get?_mem h2)).2.2)]
        exact step_once hascii hsc hstrip0 hdropI (by decide) (by decide) hI1 hiI hIlt
      by_cases b8 : ch = '>'
      · subst b8
        have hsc : scan_token (g' + 1) src i =
            some (.ok (mkSpanned src (I + 1) (bytePos src I) .Greater), I + 1) := by
          rw [scan_token_dispatch g' hI hch]
          show some (consume_with src I (bytePos src I) '=' .Greater .GreaterEquals) = _
          rw [consume_with_ne (fun c' h2 => (hres c' (List.get?_mem h2)).2.2)]
        exact step_once hascii hsc hstrip0 hdropI (by decide) (by decide) hI1 hiI hIlt
      by_cases b9 : ch = '&'
      · subst b9
        by_cases h2 : src.get? (I + 1) = some '&'
        · have hsc : scan_token (g' + 1) src i =
              some (.ok (mkSpanned src (I + 2) (bytePos src I) .AmpersandAmpersand), I + 2) := by
            rw [scan_token_dispatch g' hI hch]
            show some (consume_double src I (bytePos src I) '&' .Ampersand .AmpersandAmpersand) = _
            rw [consume_double_hit h2]
          have h3 : src.drop (I + 1) = '&' :: src.drop (I + 2) := drop_succ_of_get? h2
          have hdec : src.drop I = ['&', '&'] ++ src.drop (I + 2) := by
            rw [hdropI, h3]
            rfl
          have hI2 : I + 2 ≤ src.length := by
            have := get?_lt h2
            omega
          exact step_mk hascii hsc hstrip0 hdec rfl
            (stripGo_transparent (by decide) _) (by omega) hI1 hiI hI2
        · have hsc : scan_token (g' + 1) src i =
              some (.ok (mkSpanned src (I + 1) (bytePos src I) .Ampersand), I + 1) := by
            rw [scan_token_dispatch g' hI hch]
            show some (consume_double src I (bytePos src I) '&' .Ampersand .AmpersandAmpersand) = _
            rw [consume_double_miss (fun c' hc' heq => h2 (by rw [heq] at hc'; exact hc'))]
          exact step_once hascii hsc hstrip0 hdropI (by decide) (by decide) hI1 hiI hIlt
      by_cases b10 : ch = '|'
      · subst b10
        by_cases h2 : src.get? (I + 1) = some '|'
        · have hsc : scan_token (g' + 1) src i =
              some (.ok (mkSpanned src (I + 2) (bytePos src I) .PipePipe), I + 2) := by
            rw [scan_token_dispatch g' hI hch]
            show some (consume_double src I (bytePos src I) '|' .Pipe .PipePipe) = _
            rw [consume_double_hit h2]
          have h3 : src.drop (I + 1) = '|' :: src.drop (I + 2) := drop_succ_of_get? h2
          have hdec : src.drop I = ['|', '|'] ++ src.drop (I + 2) := by
            rw [hdropI, h3]
            rfl
          have hI2 : I + 2 ≤ src.length := by
            have := get?_lt h2
            omega
          exact step_mk hascii hsc hstrip0 hdec rfl
            (stripGo_transparent (by decide) _) (by omega) hI1 hiI hI2
        · have hsc : scan_token (g' + 1) src i =
              some (.ok (mkSpanned src (I + 1) (bytePos src I) .Pipe), I + 1) := by
            rw [scan_token_dispatch g' hI hch]
            show some (consume_double src I (bytePos src I) '|' .Pipe .PipePipe) = _
            rw [consume_double_miss (fun c' hc' heq => h2 (by rw [heq] at hc'; exact hc'))]
          exact step_once hascii hsc hstrip0 hdropI (by decide) (by decide) hI1 hiI hIlt
      by_cases b11 : ch = '*'
      · subst b11
        exact step_once hascii (by rw [scan_token_dispatch g' hI hch]; rfl)
          hstrip0 hdropI (by decide) (by decide) hI1 hiI hIlt
      by_cases b12 : ch = '%'
      · subst b12
        exact step_once hascii (by rw [scan_token_dispatch g' hI hch]; rfl)
          hstrip0 hdropI (by decide) (by decide) hI1 hiI hIlt
      by_cases b13 : ch = ':'
      · subst b13
        exact step_once hascii (by rw [scan_token_dispatch g' hI hch]; rfl)
          hstrip0 hdropI (by decide) (by decide) hI1 hiI hIlt
      by_cases b14 : ch = ';'
      · subst b14
        exact step_once hascii (by rw [scan_token_dispatch g' hI hch]; rfl)
          hstrip0 hdropI (by decide) (by decide) hI1 hiI hIlt
      by_cases b15 : ch = '('
      · subst b15
        exact step_once hascii (by rw [scan_token_dispatch g' hI hch]; rfl)
          hstrip0 hdropI (by decide) (by decide) hI1 hiI hIlt
      by_cases b16 : ch = ')'
      · subst b16
        exact step_once hascii (by rw [scan_token_dispatch g' hI hch]; rfl)
          hstrip0 hdropI (by decide) (by decide) hI1 hiI hIlt
      by_cases b17 : ch = Char.ofNat 123
      · subst b17
        exact step_once hascii (by rw [scan_token_dispatch g' hI hch]; rfl)
          hstrip0 hdropI (by decide) (by decide) hI1 hiI hIlt
      by_cases b18 : ch = Char.ofNat 125
      · subst b18
        exact step_once hascii (by rw [scan_token_dispatch g' hI hch]; rfl)
          hstrip0 hdropI (by decide) (by decide) hI1 hiI hIlt
      by_cases b19 : ch = '['
      · subst b19
        exact step_once hascii (by rw [scan_token_dispatch g' hI hch]; rfl)
          hstrip0 hdropI (by decide) (by decide) hI1 hiI hIlt
      by_cases b20 : ch = ']'
      · subst b20
        exact step_once hascii (by rw [scan_token_dispatch g' hI hch]; rfl)
          hstrip0 hdropI (by decide) (by decide) hI1 hiI hIlt
      by_cases b21 : ch = '?'
      · subst b21
        exact step_once hascii (by rw [scan_token_dispatch g' hI hch]; rfl)
          hstrip0 hdropI (by decide) (by decide) hI1 hiI hIlt
      by_cases b22 : ch = '@'
      · subst b22
        exact step_once hascii (by rw [scan_token_dispatch g' hI hch]; rfl)
          hstrip0 hdropI (by decide) (by decide) hI1 hiI hIlt
      by_cases b23 : ch = '^'
      · subst b23
        exact step_once hascii (by rw [scan_token_dispatch g' hI hch]; rfl)
          hstrip0 hdropI (by decide) (by decide) hI1 hiI hIlt
      by_cases b24 : ch = ','
      · subst b24
        exact step_once hascii (by rw [scan_token_dispatch g' hI hch]; rfl)
          hstrip0 hdropI (by decide) (by decide) hI1 hiI hIlt
      by_cases b25 : ch = doubleQuote
      · exact absurd b25 hq1
      by_cases hpa : rustIsAlphabetic ch = true
      · -- identifier or keyword
        have hsc0 : scan_token (g' + 1) src i = some (scan_identifier src I) := by
          rw [scan_token_dispatch g' hI hch]
          unfold scanDispatch
          rw [if_neg hbeq, if_neg b1, if_neg b2, if_neg b3, if_neg b4, if_neg b5,
            if_neg b6, if_neg b7, if_neg b8, if_neg b9, if_neg b10, if_neg b11,
            if_neg b12, if_neg b13, if_neg b14, if_neg b15, if_neg b16,
            if_neg b17, if_neg b18, if_neg b19, if_neg b20, if_neg b21,
            if_neg b22, if_neg b23, if_neg b24, if_neg b25, if_pos hpa]
        simp only [scan_identifier_eq] at hsc0
        have hil : 1 ≤ ((src.drop I).takeWhile
            (fun c => rustIsAlphanumeric c || c = '_')).length := by
          refine takeWhile_pos (c := ch) (by rw [hdropI]; rfl) ?_
          have hpa' : ch.isAlpha = true := hpa
          simp [rustIsAlphanumeric, Char.isAlphanum, hpa']
        have hil2 : I + ((src.drop I).takeWhile
            (fun c => rustIsAlphanumeric c || c = '_')).length ≤ src.length :=
          read_while_le_len _ hIlen
        have hibody : ∀ c ∈ (src.drop I).takeWhile
            (fun c => rustIsAlphanumeric c || c = '_'),
            rustIsWhitespace c = false ∧ c ≠ '/' := by
          intro c hc
          have hp : (rustIsAlphanumeric c || decide (c = '_')) = true := by
            simpa using List.mem_takeWhile_imp hc
          exact ident_char_ok (hascii c (mem_takeWhile_drop hc)) hp
        rcases hk : check_keyword (String.mk ((src.drop I).takeWhile
            (fun c => rustIsAlphanumeric c || c = '_'))) with _ | tok
        · have hstra : strIsAscii ((src.drop I).takeWhile
              (fun c => rustIsAlphanumeric c || c = '_')) = true := by
            simp only [strIsAscii, List.all_eq_true, decide_eq_true_eq]
            intro c hc
            exact hascii c (mem_takeWhile_drop hc)
          simp only [hk] at hsc0
          rw [if_pos hstra] at hsc0
          exact step_mk hascii hsc0 hstrip0 (readwhile_decomp _ src I) rfl
            (stripGo_transparent hibody _) hil hI1 hiI hil2
        · simp only [hk] at hsc0
          exact step_mk hascii hsc0 hstrip0 (readwhile_decomp _ src I) rfl
            (stripGo_transparent hibody _) hil hI1 hiI hil2
      by_cases hpd : ch.isDigit = true
      · -- a number literal
        have hsc0 : scan_token (g' + 1) src i = some (scan_number src I) := by
          rw [scan_token_dispatch g' hI hch]
          unfold scanDispatch
          rw [if_neg hbeq, if_neg b1, if_neg b2, if_neg b3, if_neg b4, if_neg b5,
            if_neg b6, if_neg b7, if_neg b8, if_neg b9, if_neg b10, if_neg b11,
            if_neg b12, if_neg b13, if_neg b14, if_neg b15, if_neg b16,
            if_neg b17, if_neg b18, if_neg b19, if_neg b20, if_neg b21,
            if_neg b22, if_neg b23, if_neg b24, if_neg b25, if_neg hpa,
            if_pos hpd]
        simp only [scan_number_eq] at hsc0
        have hnd1 : 1 ≤ ((src.drop I).takeWhile Char.isDigit).length :=
          takeWhile_pos (by rw [hdropI]; rfl) hpd
        have hnd2 : I + ((src.drop I).takeWhile Char.isDigit).length ≤ src.length :=
          read_while_le_len Char.isDigit hIlen
        have hnbody : ∀ c ∈ (src.drop I).takeWhile Char.isDigit,
            rustIsWhitespace c = false ∧ c ≠ '/' := fun c hc =>
          digit_char_ok (hascii c (mem_takeWhile_drop hc))
            (List.mem_takeWhile_imp hc)
        rcases hc1 : src.get? (I + ((src.drop I).takeWhile Char.isDigit).length)
          with _ | c2
        · simp only [hc1] at hsc0
          exact step_mk hascii hsc0 hstrip0 (readwhile_decomp Char.isDigit src I) rfl
            (stripGo_transparent hnbody _) hnd1 hI1 hiI hnd2
        · by_cases hdot : c2 = '.'
          · subst hdot
            rcases hc2 : src.get?
                (I + ((src.drop I).takeWhile Char.isDigit).length + 1) with _ | c3
            · simp only [hc1] at hsc0
              simp only [hc2] at hsc0
              exact step_mk hascii hsc0 hstrip0
                (readwhile_decomp Char.isDigit src I) rfl
                (stripGo_transparent hnbody _) hnd1 hI1 hiI hnd2
            · by_cases hdig : c3.isDigit = true
              · -- a float literal
                simp only [hc1] at hsc0
                simp only [hc2] at hsc0
                rw [if_pos hdig] at hsc0
                have hx1 : I + ((src.drop I).takeWhile Char.isDigit).length + 1 ≤
                    src.length := by
                  have := get?_lt hc1
                  omega
                have hx2 : I + ((src.drop I).takeWhile Char.isDigit).length + 1 +
                    ((src.drop (I + ((src.drop I).takeWhile Char.isDigit).length + 1)).takeWhile
                      Char.isDigit).length ≤ src.length :=
                  read_while_le_len Char.isDigit hx1
                have harith : I + ((src.drop I).takeWhile Char.isDigit).length + 1 +
                    ((src.drop (I + ((src.drop I).takeWhile Char.isDigit).length + 1)).takeWhile
                      Char.isDigit).length =
                    I + (((src.drop I).takeWhile Char.isDigit).length + 1 +
                      ((src.drop (I + ((src.drop I).takeWhile Char.isDigit).length + 1)).takeWhile
                        Char.isDigit).length) := by omega
                rw [harith] at hsc0
                have hdec := float_decomp (readwhile_decomp Char.isDigit src I)
                  (drop_succ_of_get? hc1)
                  (readwhile_decomp Char.isDigit src
                    (I + ((src.drop I).takeWhile Char.isDigit).length + 1))
                exact step_mk hascii hsc0 hstrip0 hdec float_len
                  (stripGo_transparent (float_body hascii) _) (by omega) hI1 hiI
                  (by omega)
              · simp only [hc1] at hsc0
                simp only [hc2] at hsc0
                rw [if_neg hdig] at hsc0
                exact step_mk hascii hsc0 hstrip0
                  (readwhile_decomp Char.isDigit src I) rfl
                  (stripGo_transparent hnbody _) hnd1 hI1 hiI hnd2
          · simp only [hc1] at hsc0
            rw [if_neg hdot] at hsc0
            exact step_mk hascii hsc0 hstrip0
              (readwhile_decomp Char.isDigit src I) rfl
              (stripGo_transparent hnbody _) hnd1 hI1 hiI hnd2
      · -- unknown character: a lexing error
        have hsc : scan_token (g' + 1) src i =
            some (.error ⟨⟨bytePos src I, bytePos src I⟩, .LexingError none⟩, I + 1) := by
          rw [scan_token_dispatch g' hI hch]
          unfold scanDispatch
          rw [if_neg hbeq, if_neg b1, if_neg b2, if_neg b3, if_neg b4, if_neg b5,
            if_neg b6, if_neg b7, if_neg b8, if_neg b9, if_neg b10, if_neg b11,
            if_neg b12, if_neg b13, if_neg b14, if_neg b15, if_neg b16,
            if_neg b17, if_neg b18, if_neg b19, if_neg b20, if_neg b21,
            if_neg b22, if_neg b23, if_neg b24, if_neg b25, if_neg hpa,
            if_neg hpd]
        exact step_of_error hsc

theorem concat_from {src : List Char}
    (hascii : ∀ c ∈ src, c.toNat < 128)
    (hres : ∀ c ∈ src, c ≠ doubleQuote ∧ c ≠ singleQuote ∧ c ≠ '=') :
    ∀ n i, src.length - i < n → i ≤ src.length →
      (1 ≤ i ∨ ∀ c, src.head? = some c → rustIsWhitespace c = true) →
      lexNoError (lexAll n src i) = true →
      spanConcat src (lexAll n src i) = stripGo false (src.drop i) := by
  intro n
  induction n with
  | zero =>
    intro i h1
    exact absurd h1 (Nat.not_lt_zero _)
  | succ n ih =>
    intro i hn hi hB hne
    have hstep := scan_step hascii hres (src.length - i) i (src.length + 1)
      (le_refl _) hi (by omega) hB
    rcases hscan : scan_token (src.length + 1) src i with _ | ⟨r, i'⟩
    · have hlex : lexAll (n + 1) src i = [] := by
        simp only [lexAll]
        rw [hscan]
      rw [hlex, hstep.1 hscan]
      rfl
    · rcases r with e | sp
      · exfalso
        have hlex : lexAll (n + 1) src i = .error e :: lexAll n src i' := by
          simp only [lexAll]
          rw [hscan]
        rw [hlex, lexNoError_cons_err] at hne
        cases hne
      · obtain ⟨hlt, hle, heq⟩ := hstep.2 sp i' hscan
        have hlex : lexAll (n + 1) src i = .ok sp :: lexAll n src i' := by
          simp only [lexAll]
          rw [hscan]
        rw [hlex] at hne ⊢
        rw [lexNoError_cons_ok] at hne
        have hrec := ih i' (by omega) hle (Or.inl (by omega)) hne
        rw [spanConcat_cons_ok, hrec, heq]

/-! ## The claims -/

/-- C10: `Type::is_pointer` returns `true` for every pointer type, every
array type and the simple string type, and returns `false` for every
reference (`Ref`) type regardless of its depth. -/
theorem claim_C10 :
    (∀ p : Pointer, (Ty.Complex (.Pointer p)).is_pointer = true) ∧
    (∀ a : Array, (Ty.Complex (.Array a)).is_pointer = true) ∧
    (Ty.Simple .String).is_pointer = true ∧
    (∀ r : Ref, (Ty.Complex (.Ref r)).is_pointer = false) :=
  ⟨fun _ => rfl, fun _ => rfl, rfl, fun _ => rfl⟩

/-- C4, evaluating the lexer at the failing inputs: on `"=5"` the `'='`
arm advances twice, producing a single `Equals` token whose span covers
both bytes (the `5` never becomes a token), and a lone `'='` at end of
input produces no token at all; `==` and `=>` are recognised as
`EqualsEquals` and `Arrow`. -/
theorem claim_C4 :
    lexSource "=5".data = [.ok ⟨⟨0, 1⟩, .Equals⟩] ∧
    lexSource "=".data = [] ∧
    lexSource "==".data = [.ok ⟨⟨0, 1⟩, .EqualsEquals⟩] ∧
    lexSource "=>".data = [.ok ⟨⟨0, 1⟩, .Arrow⟩] :=
  ⟨rfl, rfl, rfl, rfl⟩

/-- C9 fails as stated: for the two-byte character `é`, an unterminated
character literal is reported as the lexical error
```char` must have a length of one``, not as an `Ok` `Char` token
(the Rust code matches on the *byte* length of the slice). -/
theorem claim_C9_counterexample :
    lexSource [singleQuote, 'é'] =
      [.error ⟨⟨0, 3⟩, .LexingError (some "`char` must have a length of one")⟩] ∧
    ∀ sp : Spanned TokenType, lexSource [singleQuote, 'é'] ≠ [.ok sp] := by
  refine ⟨rfl, fun sp h => ?_⟩
  rw [show lexSource [singleQuote, 'é'] =
      [.error ⟨⟨0, 3⟩, .LexingError (some "`char` must have a length of one")⟩] from rfl] at h
  simp at h

/-- C9 as amended: if the input is an opening single quote followed by
exactly one *single-byte* non-backslash character and then end of input,
the lexer yields an `Ok` `Char` token for that character (and no
error). -/
theorem claim_C9 (c : Char) (h1 : c.utf8Size = 1) (h2 : c ≠ backslash)
    (h3 : c ≠ singleQuote) :
    lexSource [singleQuote, c] = [.ok ⟨⟨1, 1⟩, .Char (String.mk [c])⟩] := by
  have hchar : scan_char [singleQuote, c] 0 0 =
      (Except.ok ⟨⟨1, 1⟩, .Char (String.mk [c])⟩, 2) := by
    simp [scan_char, read_while, h3, h2, h1, byteLength, Spanned.new]
  have h0 : lexSource [singleQuote, c] =
      match scan_token 3 [singleQuote, c] 0 with
      | none => []
      | some (r, i') => r :: lexAll 3 [singleQuote, c] i' := rfl
  have hs : scan_token 3 [singleQuote, c] 0 =
      some (scan_char [singleQuote, c] 0 0) := rfl
  rw [h0, hs, hchar]
  exact rfl

/-- Witness for C9 at `c = 'a'`. -/
theorem claim_C9_witness :
    ('a'.utf8Size = 1 ∧ 'a' ≠ backslash ∧ 'a' ≠ singleQuote) ∧
    lexSource [singleQuote, 'a'] =
      [.ok ⟨⟨1, 1⟩, .Char (String.mk ['a'])⟩] :=
  ⟨⟨by decide, by decide, by decide⟩,
   claim_C9 'a' (by decide) (by decide) (by decide)⟩

/-- C1 fails as stated: on
`fn main(argc: i32): i32 { return 0; }` the parser demands `=>` between
the parameter list and the return type, so the program is one
`TopLevel::Error` holding `ConsumeError{actual: ':', expected: "=>"}`
and not the claimed function declaration. -/
theorem claim_C1_counterexample :
    c1Shape (parseSource "main.nt" c1Input) = false ∧
    c1ErrShape (parseSource "main.nt" c1Input) = true :=
  ⟨rfl, rfl⟩

/-- C1 as amended: with `=>` as the separator
(`fn main(argc: i32) => i32 { return 0; }`), `parse()` returns exactly
one `FunctionDeclaration{name="main", is_external=false,
parameters=[("argc", i32)], return_type=i32, body=[Return(0)]}` and no
`Error` items. -/
theorem claim_C1 :
    c1Shape (parseSource "main.nt" c1InputArrow) = true := rfl

/-- C6: assignment is right-associative (`a = b = c` parses as
`a = (b = c)`) while arithmetic and comparison operators are
left-associative (`a - b - c` is `(a - b) - c` and `a < b < c` is
`(a < b) < c`). -/
theorem claim_C6 :
    c6AssignShape (expressionSource "m" "a = b = c".data false) = true ∧
    c6SubShape (expressionSource "m" "a - b - c".data false) = true ∧
    c6CmpShape (expressionSource "m" "a < b < c".data false) = true :=
  ⟨rfl, rfl, rfl⟩

/-- C7: `m.f(x)` parses to a call with module `"m"`, callee
`Identifier("f")` and argument `x`, and an unqualified `f(x)` parses to a
call whose module is the current source's name, whatever that name
is. -/
theorem claim_C7 :
    c7Parts (expressionSource "m" "m.f(x)".data false) = some ("m", "f", "x") ∧
    ∀ name : String,
      c7Parts (expressionSource name "f(x)".data false) = some (name, "f", "x") :=
  ⟨rfl, fun _ => rfl⟩

/-- C3 fails as stated: a `type NAME trait` declaration makes `parse()`
abort the process (`panic!("NOT IMPLEMENTED YET")`) instead of being
handled. -/
theorem claim_C3_counterexample :
    (parseSource "m" "type T trait".data).1 = .panic "NOT IMPLEMENTED YET" := rfl

/-- C3 as amended: `parse()` catches recoverable errors, counts them and
continues (a stray `@` before a healthy function yields an `Error`
sentinel followed by the function, with `error_count = 2`), but it
aborts via `panic!` in the three cited situations: a lexical error while
skipping tokens after a bad top-level item, a `type NAME trait`
declaration, and a malformed array-size expression (whose parse error is
`.unwrap()`ed). -/
theorem claim_C3 :
    (parseSource "m" "type T trait".data).1 = .panic "NOT IMPLEMENTED YET" ∧
    (parseSource "m" "@ $".data).1 = .panic "error in m" ∧
    (parseSource "m" "fn f() => [+]i32 \x7b \x7d".data).1 =
      .panic "called `Result::unwrap()` on an `Err` value" ∧
    c3RecoverShape (parseSource "m" c3RecoverInput) = true ∧
    (parseSource "m" c3RecoverInput).2.errorCount = 2 :=
  ⟨rfl, rfl, rfl, rfl, rfl⟩

/-- C5: when a statement inside a block fails, the block loop increments
the error counter, synchronises with `sync()` (advance until the
previous item was `;` or the next token is `Type`/`Fn`/`If`/`Let`/
`Return`), appends the `error_statement` sentinel (an
`ExpressionStatement` holding an `Error` expression), and parses the
rest of the block from the synchronised state. -/
theorem claim_C5 (f : Nat) (s s' : PState) (e : Spanned ParseError)
    (hend : s.tokens.isEmpty = false)
    (hrb : peekEqualsS s .RightBrace = false)
    (hst : statementF f s = (.err e, s')) :
    blockLoop (f + 1) s =
      (match blockLoop f (sync { s' with errorCount := s'.errorCount + 1 }) with
       | (.ok rest, s₃) => (.ok (error_statement e :: rest), s₃)
       | other => other) := by
  simp only [blockLoop, Bind.bind, Monad.toBind, instMonadPM, atEnd,
    pmPeekEquals, pmTry, pmIncError, pmSync, pure, hend, hrb, hst,
    Bool.false_or, Bool.or_self, if_false]
  rw [if_neg (by simp)]
  simp only [hst]
  rcases blockLoop f (sync { s' with errorCount := s'.errorCount + 1 }) with ⟨out, s₃⟩
  cases out <;> rfl

/-- Witness for C5: inside `{ @; let x = 1; }` the `@` statement fails
and the block loop recovers exactly as claim C5 describes. -/
theorem claim_C5_witness :
    (c5state.tokens.isEmpty = false ∧
     peekEqualsS c5state .RightBrace = false ∧
     statementF 64 c5state = (.err c5err, c5state')) ∧
    blockLoop 65 c5state =
      (match blockLoop 64 (sync { c5state' with errorCount := c5state'.errorCount + 1 }) with
       | (.ok rest, s₃) => (.ok (error_statement c5err :: rest), s₃)
       | other => other) :=
  ⟨⟨rfl, rfl, rfl⟩, claim_C5 64 c5state c5state' c5err rfl rfl rfl⟩

/-- C8: every `Pointer` and `Ref` type the type parser returns has depth
in `{1, 2}`, and constructing a pointer or reference with depth greater
than 2 is a hard (panicking) error in `Pointer::new`/`Ref::new` rather
than yielding a deeper type. -/
theorem claim_C8 :
    (∀ (f : Nat) (s s' : PState) (sp : Spanned Ty),
        consume_type f s = (.ok sp, s') →
        (∀ p : Pointer, sp.node = .Complex (.Pointer p) →
          p.size = 1 ∨ p.size = 2) ∧
        (∀ r : Ref, sp.node = .Complex (.Ref r) →
          r.size = 1 ∨ r.size = 2)) ∧
    (∀ (b : Simple) (n : Nat), 2 < n →
        Pointer.new b n = .panic "ERROR : pointer cannot be more than `**` long." ∧
        Ref.new b n = .panic "ERROR : ref cannot be more than `&&` long.") :=
  ⟨c8_main, fun _ _ hn => by
    constructor <;> simp [Pointer.new, Ref.new, hn]⟩

/-- Witness for C8: on `**i32` the type parser returns a pointer of
depth 2, for which the theorem yields `2 = 1 ∨ 2 = 2`, and depth 3 is a
construction-time panic. -/
theorem claim_C8_witness :
    (consume_type 100 c8state =
      (.ok ⟨⟨0, 4⟩, .Complex (.Pointer ⟨.Integer ⟨32, true⟩, 2⟩)⟩,
       ⟨⟨"m", c8code⟩, [], 0⟩) ∧
     ((2 : Nat) = 1 ∨ (2 : Nat) = 2)) ∧
    (2 < 3 ∧
     Pointer.new .Void 3 = .panic "ERROR : pointer cannot be more than `**` long.") :=
  ⟨⟨rfl,
    (claim_C8.1 100 c8state ⟨⟨"m", c8code⟩, [], 0⟩
      ⟨⟨0, 4⟩, .Complex (.Pointer ⟨.Integer ⟨32, true⟩, 2⟩)⟩ rfl).1
      ⟨.Integer ⟨32, true⟩, 2⟩ rfl⟩,
   ⟨by decide, (claim_C8.2 .Void 3 (by decide)).1⟩⟩

/-- Counterexample to claim C2 as stated: three error-free inputs whose
concatenated token-span slices differ from the input minus whitespace and
comments.  A string literal's span drops the quotes; a single-character
first token's span leaks one character to the right, because consuming
the character at byte position 0 does not set `prev`; an `Equals` token's
span swallows the following whitespace byte (the `'='` arm advances
twice), and a final lone `'='` yields no token at all. -/
theorem claim_C2_counterexample :
    (lexNoError (lexSource c2InputString) = true ∧
      spanConcat c2InputString (lexSource c2InputString) ≠
        stripWsComments c2InputString) ∧
    (lexNoError (lexSource c2InputPlus) = true ∧
      spanConcat c2InputPlus (lexSource c2InputPlus) ≠
        stripWsComments c2InputPlus) ∧
    (lexNoError (lexSource c2InputEq) = true ∧
      spanConcat c2InputEq (lexSource c2InputEq) ≠
        stripWsComments c2InputEq) :=
  ⟨⟨by decide, by decide⟩, ⟨by decide, by decide⟩, ⟨by decide, by decide⟩⟩

/-- C2 (amended): for every ASCII input that contains no string quote, no
character quote and no `'='` (the three constructs whose spans do not
cover their source text faithfully) and whose first character, if any, is
whitespace (so that no token starts at byte 0, where the span-end
computation is off by one), if lexing produces no error then
concatenating the source slices of every token's span in iterator order
yields exactly the input text minus whitespace and `//` line comments. -/
theorem claim_C2 (src : List Char)
    (hascii : ∀ c ∈ src, c.toNat < 128)
    (hres : ∀ c ∈ src, c ≠ doubleQuote ∧ c ≠ singleQuote ∧ c ≠ '=')
    (hws : ∀ c, src.head? = some c → rustIsWhitespace c = true)
    (hne : lexNoError (lexSource src) = true) :
    spanConcat src (lexSource src) = stripWsComments src := by
  have h := concat_from hascii hres (src.length + 2) 0 (by omega) (by omega)
    (Or.inr hws) hne
  rw [List.drop_zero] at h
  exact h

/-- Witness instantiating `claim_C2` at the concrete source `" fn x"`. -/
theorem claim_C2_witness :
    spanConcat (" fn x".data) (lexSource (" fn x".data)) =
      stripWsComments (" fn x".data) :=
  claim_C2 (" fn x".data) (by decide) (by decide) (by decide) (by decide)

end Newton

